import Mathlib

/-!
Shallow embedding of the nuqql-slixmppd backend (based.py dispatcher core,
the slixmppd session layer and the reconnect logic), together with proofs
about the embedded operations.

Conventions of the embedding:
* Python byte strings are `List ℕ` (one entry per byte).
* Python `str` is Lean `String`.
* Python `int` is `ℤ`; timestamps (floats) are modelled as `ℚ`.
* The mutable module globals (`ACCOUNTS`, the store file, the invoked
  callbacks) are threaded explicitly through a `DState` record; every call
  of the `callback` helper is additionally recorded in a trace so that
  theorems can talk about which callbacks fired and in which order.
* Registered callbacks are an environment `CbEnv`; a handler may produce a
  reply string and replace the account registry (mirroring what registered
  backend handlers can reach through the module globals).
* Fallible code (Python statements that can raise) returns `Except PyErr`.
-/

set_option maxRecDepth 20000

namespace Based

/-- Buddy record (based.py class Buddy); `alias` is reserved in Lean,
so the field is called `alias_`. -/
structure Buddy where
  name : String
  alias_ : String
  status : String
  deriving DecidableEq

/-- Account record (based.py class Account). -/
structure Account where
  aid : ℤ
  name : String
  type : String
  user : String
  password : String
  status : String
  buddies : List Buddy
  deriving DecidableEq

/-- Account constructor defaults of based.py (`Account.__init__`). -/
def defaultAccount : Account :=
  { aid := 0, name := "", type := "dummy", user := "dummy@dummy.com",
    password := "dummy_password", status := "online", buddies := [] }

/-- The Account construction performed by handle_account_add:
`Account(aid=..., atype=..., user=..., password=...)` with the remaining
constructor defaults. -/
def accountInit (aid : ℤ) (atype user password : String) : Account :=
  { aid := aid, name := "", type := atype, user := user,
    password := password, status := "online", buddies := [] }

/-- Callback constants (based.py class Callback). -/
inductive Callback
  | QUIT
  | DISCONNECT
  | SEND_MESSAGE
  | GET_MESSAGES
  | COLLECT_MESSAGES
  | ADD_ACCOUNT
  | DEL_ACCOUNT
  | UPDATE_BUDDIES
  | GET_STATUS
  | SET_STATUS
  | CHAT_LIST
  | CHAT_JOIN
  | CHAT_PART
  | CHAT_USERS
  | CHAT_SEND
  | CHAT_INVITE
  deriving DecidableEq

/-- Positional parameter of a callback invocation. -/
inductive CbParam
  | str (s : String)
  | acc (a : Account)
  deriving DecidableEq

/-- Exceptions the embedded code can raise. -/
inductive PyErr
  | indexError
  | keyError
  deriving DecidableEq

/-- State threaded through the dispatcher: the ACCOUNTS dict (as an
insertion-ordered association list), the number of times store_accounts
ran, and the trace of callback invocations. -/
structure DState where
  accounts : List (ℤ × Account)
  stores : ℕ
  trace : List (ℤ × Callback)
  deriving DecidableEq

/-- The registered-callback environment (the CALLBACKS dict): a handler
receives the account id, the positional parameters and the registry and
returns a reply plus the (possibly updated) registry. -/
def CbEnv : Type :=
  Callback → Option (ℤ → List CbParam → List (ℤ × Account) → String × List (ℤ × Account))

/-- Environment with no registered callbacks. -/
def cbEnvNone : CbEnv := fun _ => none

/-- Python dict lookup on an association list. -/
def dictGet {α : Type} (l : List (ℤ × α)) (k : ℤ) : Option α :=
  match l with
  | [] => none
  | p :: rest => if p.1 = k then some p.2 else dictGet rest k

/-- Python dict assignment: replace in place if the key exists,
else append (dicts preserve insertion order). -/
def dictSet {α : Type} (l : List (ℤ × α)) (k : ℤ) (v : α) : List (ℤ × α) :=
  if l.any (fun p => p.1 == k) then l.map (fun p => if p.1 = k then (k, v) else p)
  else l ++ [(k, v)]

/-- Python dict deletion (the call sites guard that the key exists). -/
def dictDel {α : Type} (l : List (ℤ × α)) (k : ℤ) : List (ℤ × α) :=
  l.filter (fun p => p.1 != k)

/-- Digit-string to number; `none` if empty or a non-digit occurs. -/
def digitsToNat (ds : List Char) : Option ℕ :=
  match ds with
  | [] => none
  | _ =>
    if ds.all (fun c => c.isDigit) then
      some (ds.foldl (fun n c => n * 10 + (c.toNat - 48)) 0)
    else none

/-- Python `int(s)` on a token without whitespace: optional sign followed
by decimal digits, `none` models ValueError. -/
def pyIntOf (s : String) : Option ℤ :=
  match s.data with
  | [] => none
  | c :: rest =>
    if c = '-' then (digitsToNat rest).map (fun n => -(n : ℤ))
    else if c = '+' then (digitsToNat rest).map (fun n => (n : ℤ))
    else (digitsToNat (c :: rest)).map (fun n => (n : ℤ))

/-- Python `str.split(sep)` for a one-character separator, on the
character list: split at every separator, keeping empty parts
(`"".split(sep) == [""]`). -/
def splitChars (sep : Char) : List Char → List (List Char)
  | [] => [[]]
  | c :: rest =>
    let r := splitChars sep rest
    if c = sep then [] :: r
    else
      match r with
      | [] => [[c]]
      | g :: gs => (c :: g) :: gs

/-- Python `str.split(sep)` for a one-character separator. -/
def pySplit (sep : Char) (s : String) : List String :=
  (splitChars sep s.data).map (fun cs => String.mk cs)

/-- Python `str.lower()` (ASCII range, as used for the "online" token). -/
def pyLower (s : String) : String :=
  String.mk (s.data.map Char.toLower)

/-- callback: record the invocation in the trace, then run the handler
if one is registered, else return the empty reply. -/
def callback (env : CbEnv) (account_id : ℤ) (cb_name : Callback)
    (params : List CbParam) (st : DState) : String × DState :=
  let st1 : DState := { st with trace := st.trace ++ [(account_id, cb_name)] }
  match env cb_name with
  | some f =>
    let r := f account_id params st1.accounts
    (r.1, { st1 with accounts := r.2 })
  | none => ("", st1)

namespace Format

/-- Two-byte frame delimiter (Format.EOM). -/
def EOM : String := "\r\n"

def INFO (s : String) : String := "info: " ++ s ++ EOM

def ERROR (s : String) : String := "error: " ++ s ++ EOM

def ACCOUNT (aid : ℤ) (name type user status : String) : String :=
  "account: " ++ toString aid ++ " (" ++ name ++ ") " ++ type ++ " " ++ user ++
    " [" ++ status ++ "]" ++ EOM

def BUDDY (aid : ℤ) (status name alias_ : String) : String :=
  "buddy: " ++ toString aid ++ " status: " ++ status ++ " name: " ++ name ++
    " alias: " ++ alias_ ++ EOM

def STATUS (aid : ℤ) (status : String) : String :=
  "status: account " ++ toString aid ++ " status: " ++ status ++ EOM

def MESSAGE (aid : ℤ) (destination : String) (tstamp : ℤ) (sender body : String) : String :=
  "message: " ++ toString aid ++ " " ++ destination ++ " " ++ toString tstamp ++ " " ++
    sender ++ " " ++ body ++ EOM

def CHAT_USER (aid : ℤ) (chat user alias_ status : String) : String :=
  "chat: user: " ++ toString aid ++ " " ++ chat ++ " " ++ user ++ " " ++
    alias_ ++ " " ++ status ++ EOM

def CHAT_LIST (aid : ℤ) (chat alias_ nick : String) : String :=
  "chat: list: " ++ toString aid ++ " " ++ chat ++ " " ++ alias_ ++ " " ++ nick ++ EOM

def CHAT_MSG (aid : ℤ) (chat : String) (tstamp : ℤ) (sender body : String) : String :=
  "chat: msg: " ++ toString aid ++ " " ++ chat ++ " " ++ toString tstamp ++ " " ++
    sender ++ " " ++ body ++ EOM

/-- Static usage text returned by the help command. -/
def HELP_MSG : String :=
  "info: List of commands and their description:\naccount list\n    list all accounts and their account ids.\naccount add <protocol> <user> <password>\n    add a new account for chat protocol <protocol> with user name <user> and\n    the password <password>. The supported chat protocol(s) are backend\n    specific. The user name is chat protocol specific. An account id is\n    assigned to the account that can be shown with \"account list\".\naccount <id> delete\n    delete the account with the account id <id>.\naccount <id> buddies [online]\n    list all buddies on the account with the account id <id>. Optionally, show\n    only online buddies with the extra parameter \"online\".\naccount <id> collect\n    collect all messages received on the account with the account id <id>.\naccount <id> send <user> <msg>\n    send a message to the user <user> on the account with the account id <id>.\naccount <id> status get\n    get the status of the account with the account id <id>.\naccount <id> status set <status>\n    set the status of the account with the account id <id> to <status>.\naccount <id> chat list\n    list all group chats on the account with the account id <id>.\naccount <id> chat join <chat>\n    join the group chat <chat> on the account with the account id <id>.\naccount <id> chat part <chat>\n    leave the group chat <chat> on the account with the account id <id>.\naccount <id> chat send <chat> <msg>\n    send the message <msg> to the group chat <chat> on the account with the\n    account id <id>.\naccount <id> chat users <chat>\n    list the users in the group chat <chat> on the account with the\n    account id <id>.\naccount <id> chat invite <chat> <user>\n    invite the user <user> to the group chat <chat> on the account with the\n    account id <id>.\nbye\n    disconnect from backend\nquit\n    quit backend\nhelp\n    show this help" ++ EOM

end Format

/-- The inner loop of _get_account_id over the ascending key list,
starting from last_acc_id = -1. -/
def getAccountIdLoop : List ℤ → ℤ → ℤ
  | [], last => last + 1
  | accId :: rest, last =>
    if accId - last ≥ 2 then last + 1
    else if accId - last = 1 then getAccountIdLoop rest accId
    else getAccountIdLoop rest last

/-- _get_account_id: next free account id (0 when the registry is empty,
else a scan of the sorted existing ids). -/
def get_account_id (accounts : List (ℤ × Account)) : ℤ :=
  if accounts = [] then 0
  else getAccountIdLoop (List.insertionSort (· ≤ ·) (accounts.map (fun p => p.1))) (-1)

/-- handle_account_list: one "account:" line per registered account. -/
def handle_account_list (st : DState) : String × DState :=
  let replies := st.accounts.map
    (fun p => Format.ACCOUNT p.2.aid p.2.name p.2.type p.2.user p.2.status)
  (String.join replies, st)

/-- handle_account_add: add a new account unless one with the same type
and user exists; persist and fire ADD_ACCOUNT on success. -/
def handle_account_add (params : List String) (env : CbEnv) (st : DState) :
    String × DState :=
  if params.length < 3 then ("", st)
  else
    let acc_id := get_account_id st.accounts
    let new_acc := accountInit acc_id (params.getD 0 "") (params.getD 1 "") (params.getD 2 "")
    if st.accounts.any (fun p => p.2.type == new_acc.type && p.2.user == new_acc.user) then
      (Format.INFO "account already exists.", st)
    else
      let st1 : DState := { st with accounts := dictSet st.accounts new_acc.aid new_acc,
                                    stores := st.stores + 1 }
      let r := callback env new_acc.aid Callback.ADD_ACCOUNT [CbParam.acc new_acc] st1
      (Format.INFO "new account added.", r.2)

/-- handle_account_delete: remove the account, persist, fire DEL_ACCOUNT. -/
def handle_account_delete (acc_id : ℤ) (env : CbEnv) (st : DState) : String × DState :=
  let st1 : DState := { st with accounts := dictDel st.accounts acc_id,
                                stores := st.stores + 1 }
  let r := callback env acc_id Callback.DEL_ACCOUNT [] st1
  (Format.INFO ("account " ++ toString acc_id ++ " deleted."), r.2)

/-- handle_account_buddies: fire UPDATE_BUDDIES, then list the account's
buddies, keeping only status "Available" when the "online" filter is on. -/
def handle_account_buddies (acc_id : ℤ) (params : List String) (env : CbEnv)
    (st : DState) : Except PyErr (String × DState) :=
  let r := callback env acc_id Callback.UPDATE_BUDDIES [] st
  let st1 := r.2
  let online : Bool := !params.isEmpty && (pyLower (params.getD 0 "") == "online")
  match dictGet st1.accounts acc_id with
  | none => Except.error PyErr.keyError
  | some acc =>
    let replies := (acc.buddies.filter
        (fun b => !(online && b.status != "Available"))).map
      (fun b => Format.BUDDY acc_id b.status b.name b.alias_)
    Except.ok (String.join replies, st1)

/-- handle_account_collect: the optional time parameter is read but only
logged; the reply is whatever COLLECT_MESSAGES returns. -/
def handle_account_collect (acc_id : ℤ) (params : List String) (env : CbEnv)
    (st : DState) : String × DState :=
  let _time : String := if params.length ≥ 1 then params.getD 0 "" else "0"
  callback env acc_id Callback.COLLECT_MESSAGES [] st

/-- handle_account_send: `user = params[0]` raises IndexError on an empty
parameter list; otherwise fire SEND_MESSAGE (Account.send_msg) and append
the destination as a new buddy unless it is already known. -/
def handle_account_send (acc_id : ℤ) (params : List String) (env : CbEnv)
    (st : DState) : Except PyErr (String × DState) :=
  match params with
  | [] => Except.error PyErr.indexError
  | user :: rest =>
    let msg := String.intercalate " " rest
    let r := callback env acc_id Callback.SEND_MESSAGE [CbParam.str user, CbParam.str msg] st
    let st1 := r.2
    match dictGet st1.accounts acc_id with
    | none => Except.error PyErr.keyError
    | some acc =>
      if acc.buddies.any (fun b => b.name == user) then Except.ok ("", st1)
      else
        let new_buddy : Buddy := { name := user, alias_ := "", status := "Available" }
        let acc1 := { acc with buddies := acc.buddies ++ [new_buddy] }
        let st2 : DState := { st1 with accounts := dictSet st1.accounts acc_id acc1,
                                       stores := st1.stores + 1 }
        Except.ok ("", st2)

/-- handle_account_status: "get" fires GET_STATUS and formats a non-empty
result, "set" needs a status token and relays the SET_STATUS reply. -/
def handle_account_status (acc_id : ℤ) (params : List String) (env : CbEnv)
    (st : DState) : String × DState :=
  match params with
  | [] => ("", st)
  | p0 :: rest =>
    if p0 = "get" then
      let r := callback env acc_id Callback.GET_STATUS [] st
      if r.1 ≠ "" then (Format.STATUS acc_id r.1, r.2) else ("", r.2)
    else if p0 = "set" then
      match rest with
      | [] => ("", st)
      | status :: _ => callback env acc_id Callback.SET_STATUS [CbParam.str status] st
    else ("", st)

/-- handle_account_chat: each sub-verb maps to one callback; missing
required tokens yield an empty reply. -/
def handle_account_chat (acc_id : ℤ) (params : List String) (env : CbEnv)
    (st : DState) : String × DState :=
  match params with
  | [] => ("", st)
  | p0 :: _ =>
    if p0 = "list" then callback env acc_id Callback.CHAT_LIST [] st
    else if params.length < 2 then ("", st)
    else
      let chat := params.getD 1 ""
      if p0 = "join" then callback env acc_id Callback.CHAT_JOIN [CbParam.str chat] st
      else if p0 = "part" then callback env acc_id Callback.CHAT_PART [CbParam.str chat] st
      else if p0 = "users" then callback env acc_id Callback.CHAT_USERS [CbParam.str chat] st
      else if params.length < 3 then ("", st)
      else if p0 = "invite" then
        callback env acc_id Callback.CHAT_INVITE
          [CbParam.str chat, CbParam.str (params.getD 2 "")] st
      else if p0 = "send" then
        callback env acc_id Callback.CHAT_SEND
          [CbParam.str chat, CbParam.str (String.intercalate " " (params.drop 2))] st
      else ("", st)

/-- handle_account: dispatch an "account ..." command line (the caller
guarantees at least two tokens). -/
def handle_account (parts : List String) (env : CbEnv) (st : DState) :
    Except PyErr (String × DState) :=
  if parts.getD 1 "" = "list" then
    Except.ok (handle_account_list st)
  else if parts.getD 1 "" = "add" then
    Except.ok (handle_account_add (parts.drop 2) env st)
  else if parts.length ≥ 3 then
    match pyIntOf (parts.getD 1 "") with
    | none => Except.ok (Format.ERROR "invalid account ID", st)
    | some acc_id =>
      let command := parts.getD 2 ""
      let params := parts.drop 3
      if (dictGet st.accounts acc_id).isNone then
        Except.ok (Format.ERROR "invalid account", st)
      else if command = "list" then Except.ok (handle_account_list st)
      else if command = "add" then Except.ok (handle_account_add params env st)
      else if command = "delete" then Except.ok (handle_account_delete acc_id env st)
      else if command = "buddies" then handle_account_buddies acc_id params env st
      else if command = "collect" then Except.ok (handle_account_collect acc_id params env st)
      else if command = "send" then handle_account_send acc_id params env st
      else if command = "status" then Except.ok (handle_account_status acc_id params env st)
      else if command = "chat" then Except.ok (handle_account_chat acc_id params env st)
      else Except.ok (Format.ERROR "unknown command", st)
  else
    Except.ok (Format.ERROR "invalid command", st)

/-- The per-account loop of the bye/quit branch of handle_msg: fire
DISCONNECT (bye) or QUIT (quit) for every account id. -/
def fireByeQuit (cmd : String) (env : CbEnv) (aids : List ℤ) (st : DState) : DState :=
  match aids with
  | [] => st
  | a :: rest =>
    let st1 := if cmd = "bye" then (callback env a Callback.DISCONNECT [] st).2 else st
    let st2 := if cmd = "quit" then (callback env a Callback.QUIT [] st1).2 else st1
    fireByeQuit cmd env rest st2

/-- handle_msg: split the decoded line on single spaces and dispatch;
returns the command class ("msg", "bye" or "quit"), the reply text and
the updated state. -/
def handle_msg (msg : String) (env : CbEnv) (st : DState) :
    Except PyErr (String × String × DState) :=
  let parts := pySplit ' ' msg
  if parts.length ≥ 2 ∧ parts.getD 0 "" = "account" then
    match handle_account parts env st with
    | Except.error e => Except.error e
    | Except.ok r => Except.ok ("msg", r.1, r.2)
  else if parts.getD 0 "" = "bye" ∨ parts.getD 0 "" = "quit" then
    let st1 := fireByeQuit (parts.getD 0 "") env (st.accounts.map (fun p => p.1)) st
    Except.ok (parts.getD 0 "", "Goodbye.", st1)
  else if parts.getD 0 "" = "help" then
    Except.ok ("msg", Format.HELP_MSG, st)
  else
    Except.ok ("msg", "", st)

/-- A Unicode code point as an optional `Char` (checked construction). -/
def charOfNat (n : ℕ) : Option Char :=
  if h : Nat.isValidChar n then some (Char.ofNatAux n h) else none

/-- Continuation byte predicate of UTF-8. -/
def isCont (b : ℕ) : Bool := 128 ≤ b && b < 192

/-- Strict UTF-8 decoding of a byte list (the semantics of Python
`bytes.decode()`): rejects bad lead/continuation bytes, overlong forms,
surrogates and code points above 0x10FFFF. -/
def utf8Decode : List ℕ → Option (List Char)
  | [] => some []
  | b :: rest =>
    if b < 128 then
      match charOfNat b, utf8Decode rest with
      | some c, some cs => some (c :: cs)
      | _, _ => none
    else if 194 ≤ b && b ≤ 223 then
      match rest with
      | c1 :: rest1 =>
        if isCont c1 then
          match charOfNat ((b - 192) * 64 + (c1 - 128)), utf8Decode rest1 with
          | some c, some cs => some (c :: cs)
          | _, _ => none
        else none
      | _ => none
    else if 224 ≤ b && b ≤ 239 then
      match rest with
      | c1 :: c2 :: rest2 =>
        let lo1 : ℕ := if b = 224 then 160 else 128
        let hi1 : ℕ := if b = 237 then 159 else 191
        if lo1 ≤ c1 && c1 ≤ hi1 && isCont c2 then
          match charOfNat ((b - 224) * 4096 + (c1 - 128) * 64 + (c2 - 128)),
              utf8Decode rest2 with
          | some c, some cs => some (c :: cs)
          | _, _ => none
        else none
      | _ => none
    else if 240 ≤ b && b ≤ 244 then
      match rest with
      | c1 :: c2 :: c3 :: rest3 =>
        let lo1 : ℕ := if b = 240 then 144 else 128
        let hi1 : ℕ := if b = 244 then 143 else 191
        if lo1 ≤ c1 && c1 ≤ hi1 && isCont c2 && isCont c3 then
          match charOfNat ((b - 240) * 262144 + (c1 - 128) * 4096 + (c2 - 128) * 64 +
              (c3 - 128)), utf8Decode rest3 with
          | some c, some cs => some (c :: cs)
          | _, _ => none
        else none
      | _ => none
    else none

/-- Byte-list decoding to a `String` (`msg.decode()`). -/
def utf8DecodeStr (l : List ℕ) : Option String :=
  (utf8Decode l).map (fun cs => String.mk cs)

/-- Python bytes.find(pat): index of the first occurrence of `pat`, if any. -/
def findSub (l pat : List ℕ) : Option ℕ :=
  match l with
  | [] => if pat = [] then some 0 else none
  | _ :: rest =>
    if pat.isPrefixOf l then some 0
    else (findSub rest pat).map (fun i => i + 1)

/-- The byte encoding of the frame delimiter `Format.EOM` ("\r\n"). -/
def eomBytes : List ℕ := [13, 10]

/-- Fuel-indexed frame splitter; every step consumes at least two bytes,
so a fuel of the list length always suffices (`framesOfF_irrel`). -/
def framesOfF : ℕ → List ℕ → List (List ℕ) × List ℕ
  | 0, l => ([], l)
  | fuel + 1, l =>
    match findSub l eomBytes with
    | none => ([], l)
    | some i =>
      let r := framesOfF fuel (l.drop (i + 2))
      (l.take i :: r.1, r.2)

/-- Pure frame splitter: the complete CRLF-delimited frames of a byte
stream and the trailing remainder. -/
def framesOf (l : List ℕ) : List (List ℕ) × List ℕ :=
  framesOfF l.length l

/-- Return value of handle_messages: Python returns nothing, the plain
string "bye"/"quit", or the pair `("bye", error)` on a decode error. -/
inductive HMRet
  | noneRet
  | strRet (s : String)
  | tupleRet (s : String)
  deriving DecidableEq

/-- Result of one handle_messages call: updated state, remaining buffer,
the decoded frames handed to handle_msg (in order), the replies written
back to the client, and the return value. -/
structure HMOut where
  st : DState
  buffer : List ℕ
  dispatched : List String
  sent : List String
  ret : HMRet
  deriving DecidableEq

/-- Fuel-indexed handle_messages loop; every iteration consumes at least
two buffer bytes, so a fuel of the buffer length always suffices
(`handleMessagesF_irrel`). -/
def handleMessagesF (env : CbEnv) : ℕ → DState → List ℕ → Except PyErr HMOut
  | 0, st, buffer => Except.ok ⟨st, buffer, [], [], HMRet.noneRet⟩
  | fuel + 1, st, buffer =>
    match findSub buffer eomBytes with
    | none => Except.ok ⟨st, buffer, [], [], HMRet.noneRet⟩
    | some eom =>
      let msg := buffer.take eom
      let buffer1 := buffer.drop (eom + 2)
      match utf8DecodeStr msg with
      | none => Except.ok ⟨st, buffer1, [], [], HMRet.tupleRet "bye"⟩
      | some m =>
        match handle_msg m env st with
        | Except.error e => Except.error e
        | Except.ok (cmd, reply, st1) =>
          let sentNow : List String := if cmd = "msg" ∧ reply ≠ "" then [reply] else []
          if cmd = "bye" ∨ cmd = "quit" then
            Except.ok ⟨st1, buffer1, [m], sentNow, HMRet.strRet cmd⟩
          else
            match handleMessagesF env fuel st1 buffer1 with
            | Except.error e => Except.error e
            | Except.ok out =>
              Except.ok ⟨out.st, out.buffer, m :: out.dispatched, sentNow ++ out.sent, out.ret⟩

/-- handle_messages: repeatedly extract the first complete frame from the
buffer, decode it and hand it to handle_msg; a decode failure returns the
`("bye", error)` pair, a "bye"/"quit" command returns that string, and
processing stops when no complete frame remains. -/
def handle_messages (env : CbEnv) (st : DState) (buffer : List ℕ) :
    Except PyErr HMOut :=
  handleMessagesF env buffer.length st buffer

/-- Prefix dispatched frames and sent replies onto a handle_messages
result. -/
def prependHM (d s : List String) (x : Except PyErr HMOut) : Except PyErr HMOut :=
  match x with
  | Except.error e => Except.error e
  | Except.ok out => Except.ok ⟨out.st, out.buffer, d ++ out.dispatched, s ++ out.sent, out.ret⟩

/-- Fuel-indexed iteration of the handle-loop rounds between reads
(`drainLoopF_irrel` shows the buffer length is enough fuel). -/
def drainLoopF (env : CbEnv) : ℕ → DState → List ℕ → Except PyErr HMOut
  | 0, st, buffer => handle_messages env st buffer
  | fuel + 1, st, buffer =>
    match handle_messages env st buffer with
    | Except.error e => Except.error e
    | Except.ok out =>
      match out.ret with
      | HMRet.tupleRet _ =>
        match drainLoopF env fuel out.st out.buffer with
        | Except.error e => Except.error e
        | Except.ok out2 =>
          Except.ok ⟨out2.st, out2.buffer, out.dispatched ++ out2.dispatched,
            out.sent ++ out2.sent, out2.ret⟩
      | _ => Except.ok out

/-- One handle-loop round between reads: the loop body calls
handle_messages and, because the pair returned on a decode error compares
unequal to both "bye" and "quit", simply iterates again on the shortened
buffer without dropping the client. -/
def drainLoop (env : CbEnv) (st : DState) (buffer : List ℕ) : Except PyErr HMOut :=
  drainLoopF env buffer.length st buffer

/-- Final observation of one client connection handled by `handle`:
per-connection state, leftover buffer, dispatched frames, sent replies
and the outcome (`some "bye"` = connection dropped, `some "quit"` =
process exit, `none` = still serving). -/
structure ReaderResult where
  st : DState
  buffer : List ℕ
  dispatched : List String
  sent : List String
  outcome : Option String
  deriving DecidableEq

/-- Outcome of a handle_messages return value as seen by `handle`:
only the plain strings "bye"/"quit" terminate the loop. -/
def retOutcome : HMRet → Option String
  | HMRet.strRet c => some c
  | _ => none

/-- The read/dispatch part of the `handle` loop, run over a given
sequence of socket reads: append each read to the buffer, process
complete frames, stop when handle_messages returns "bye" or "quit". -/
def runReader (env : CbEnv) (st : DState) (buffer : List ℕ) :
    List (List ℕ) → Except PyErr ReaderResult
  | [] =>
    match drainLoop env st buffer with
    | Except.error e => Except.error e
    | Except.ok out => Except.ok ⟨out.st, out.buffer, out.dispatched, out.sent, retOutcome out.ret⟩
  | c :: cs =>
    match drainLoop env st (buffer ++ c) with
    | Except.error e => Except.error e
    | Except.ok out =>
      match out.ret with
      | HMRet.strRet cmd => Except.ok ⟨out.st, out.buffer, out.dispatched, out.sent, some cmd⟩
      | _ =>
        match runReader env out.st out.buffer cs with
        | Except.error e => Except.error e
        | Except.ok r =>
          Except.ok ⟨r.st, r.buffer, out.dispatched ++ r.dispatched,
            out.sent ++ r.sent, r.outcome⟩

/-- Map a drainLoop result to the observation the handle loop makes of
it once no further reads arrive. -/
def outcomeMap (x : Except PyErr HMOut) : Except PyErr ReaderResult :=
  match x with
  | Except.error e => Except.error e
  | Except.ok out => Except.ok ⟨out.st, out.buffer, out.dispatched, out.sent, retOutcome out.ret⟩

/-- Prefix dispatched frames and sent replies onto a runReader result. -/
def prependR (d s : List String) (x : Except PyErr ReaderResult) :
    Except PyErr ReaderResult :=
  match x with
  | Except.error e => Except.error e
  | Except.ok r => Except.ok ⟨r.st, r.buffer, d ++ r.dispatched, s ++ r.sent, r.outcome⟩

/-- Agreement of two reader runs: the same raised error, or the same
state, dispatched frames, replies and outcome, with equal leftover
buffers whenever the connection is still being served. -/
def agree : Except PyErr ReaderResult → Except PyErr ReaderResult → Prop
  | Except.error e, Except.error e2 => e = e2
  | Except.ok r, Except.ok r2 =>
      r.st = r2.st ∧ r.dispatched = r2.dispatched ∧ r.sent = r2.sent ∧
      r.outcome = r2.outcome ∧ (r.outcome = none → r.buffer = r2.buffer)
  | _, _ => False

/-- Fixture: a dispatcher state with no accounts. -/
def emptyState : DState := ⟨[], 0, []⟩

/-- Fixture: one registered xmpp account with id 0. -/
def exAccount : Account := accountInit 0 "xmpp" "alice@example.com" "secret"

/-- Fixture: a dispatcher state holding only `exAccount`. -/
def exState : DState := ⟨[(0, exAccount)], 0, []⟩

/-- Fixture: `exAccount` with a backend buddy snapshot using the
lowercase status vocabulary of the slixmppd backend. -/
def exBuddyAccount : Account :=
  { exAccount with buddies := [⟨"buddy1", "alias1", "available"⟩,
                               ⟨"buddy2", "alias2", "offline"⟩] }

/-- Fixture: a dispatcher state holding only `exBuddyAccount`. -/
def exBuddyState : DState := ⟨[(0, exBuddyAccount)], 0, []⟩

/-- Fixture: `exAccount` with one buddy whose status carries the
capitalised spelling the based.py filter compares against. -/
def exBuddyAccountCap : Account :=
  { exAccount with buddies := [⟨"buddy1", "alias1", "Available"⟩] }

/-- Fixture: a dispatcher state holding only `exBuddyAccountCap`. -/
def exBuddyStateCap : DState := ⟨[(0, exBuddyAccountCap)], 0, []⟩

/-- Fixture: the bytes of "account li" (a partial read). -/
def accLiBytes : List ℕ := [97, 99, 99, 111, 117, 110, 116, 32, 108, 105]

/-- Fixture: the bytes of "st\r\n" (the rest of the command). -/
def stCrlfBytes : List ℕ := [115, 116, 13, 10]

/-- Fixture: the bytes of "bye\r\nhelp\r\n" (a terminal frame followed by
a further complete frame). -/
def byeHelpBytes : List ℕ := [98, 121, 101, 13, 10, 104, 101, 108, 112, 13, 10]

/-- Fixture: an undecodable frame (a lone 0xff byte) followed by the
complete frame "xyz\r\n". -/
def badByteFrame : List ℕ := [255, 13, 10, 120, 121, 122, 13, 10]

/-- html.escape of one character (quote=True: also escapes quote
characters; the quote and apostrophe characters are written by code). -/
def htmlEscapeChar (c : Char) : String :=
  if c = '&' then "&amp;"
  else if c = '<' then "&lt;"
  else if c = '>' then "&gt;"
  else if c = Char.ofNat 34 then "&quot;"
  else if c = Char.ofNat 39 then "&#x27;"
  else String.singleton c

/-- Python html.escape. -/
def htmlEscape (s : String) : String :=
  String.join (s.data.map htmlEscapeChar)

/-- Newlines replaced by "<br/>" as in the message formatting helpers. -/
def brJoin (s : String) : String :=
  String.intercalate "<br/>" (pySplit '\n' s)

/-- based.format_message: html-escape the body, replace newlines, and
produce a "message:" line. -/
def format_message (account : Account) (tstamp : ℤ) (sender destination msg : String) :
    String :=
  Format.MESSAGE account.aid destination tstamp sender (brJoin (htmlEscape msg))

/-- based.format_chat_msg: html-escape the body, replace newlines, and
produce a "chat: msg:" line. -/
def format_chat_msg (account : Account) (tstamp : ℤ) (sender destination msg : String) :
    String :=
  Format.CHAT_MSG account.aid destination tstamp sender (brJoin (htmlEscape msg))

end Based

namespace Slixmppd

open Based

/-- Mutable per-connection state of NuqqlClient
(nuqql_slixmppd/slixmppd.py): roster snapshot copy, outbound command
queue, replayable history, drain-on-read message list, pending group-chat
invites, joined/left chat cache, and the own-message filter flag. -/
structure XmppSession where
  buddies : List Buddy
  queue : List (Callback × List CbParam)
  history : List String
  messages : List String
  muc_invites : List (String × (String × String))
  muc_cache : List String
  muc_filter_own : Bool
  deriving DecidableEq

/-- Fresh NuqqlClient state (the `__init__` field initialisers). -/
def initSession : XmppSession :=
  { buddies := [], queue := [], history := [], messages := [],
    muc_invites := [], muc_cache := [], muc_filter_own := true }

/-- NuqqlClient.collect: hand out a copy of the history, state unchanged. -/
def collect (s : XmppSession) : List String × XmppSession :=
  (s.history, s)

/-- NuqqlClient.get_messages: hand out a copy of the message list and
flush it. -/
def get_messages (s : XmppSession) : List String × XmppSession :=
  (s.messages, { s with messages := [] })

/-- NuqqlClient.message: a "chat"/"normal" message without a muc#user tag
is formatted and appended to both the message list and the history; the
timestamp is the delay stamp when present, else the current time. -/
def message (acct : Account) (mtype : String) (mucUserTag : Bool)
    (delayStamp : Option ℤ) (now : ℤ) (mfrom mto body : String)
    (s : XmppSession) : XmppSession :=
  if mtype = "chat" ∨ mtype = "normal" then
    if mucUserTag then s
    else
      let tstamp := delayStamp.getD now
      let formated_msg := format_message acct tstamp mfrom mto body
      { s with messages := s.messages ++ [formated_msg],
               history := s.history ++ [formated_msg] }
  else s

/-- NuqqlClient.muc_message: a groupchat message is dropped when it is
our own and filtering is on, else formatted and appended to both the
message list and the history. -/
def muc_message (acct : Account) (mtype chat mucnick ourNick : String)
    (delayStamp : Option ℤ) (now : ℤ) (body : String)
    (s : XmppSession) : XmppSession :=
  if mtype = "groupchat" then
    if s.muc_filter_own && (mucnick == ourNick) then s
    else
      let tstamp := delayStamp.getD now
      let formated_msg := format_chat_msg acct tstamp mucnick chat body
      { s with messages := s.messages ++ [formated_msg],
               history := s.history ++ [formated_msg] }
  else s

/-- NuqqlClient._muc_presence: a group-chat presence for another user is
turned into a "chat: user:" line and appended to the message list only. -/
def muc_presence (acct : Account) (chat ourNick presNick presRole status : String)
    (s : XmppSession) : XmppSession :=
  if presNick = "" ∧ presRole = "" then s
  else if presNick ≠ ourNick then
    let msg := Format.CHAT_USER acct.aid chat presNick presNick status
    { s with messages := s.messages ++ [msg] }
  else s

/-- NuqqlClient._get_status: derive the own status from the roster
presence of the bound jid and append a "status:" line to the message
list only. -/
def get_status (acct : Account) (connections : List String) (s : XmppSession) :
    XmppSession :=
  let status0 := if connections.isEmpty then "offline" else "available"
  let status := connections.foldl (fun st sh => if sh ≠ "" then sh else st) status0
  { s with messages := s.messages ++ [Format.STATUS acct.aid status] }

/-- NuqqlClient._chat_list: append a "chat: list:" line per joined room
to the message list only. -/
def chat_list (acct : Account) (joinedRooms : List String) (ourNicks : String → String)
    (s : XmppSession) : XmppSession :=
  joinedRooms.foldl
    (fun s chat =>
      { s with messages := s.messages ++ [Format.CHAT_LIST acct.aid chat chat (ourNicks chat)] })
    s

/-- Module-level collect_messages: join the collected history of the
account's connection, or the empty reply without a connection. -/
def collect_messages (conns : List (ℤ × XmppSession)) (account_id : ℤ) : String :=
  match dictGet conns account_id with
  | none => ""
  | some xmpp => String.join (collect xmpp).1

/-- Module-level get_messages: join and flush the message list of the
account's connection (the GET_MESSAGES drain). -/
def get_messages_cb (conns : List (ℤ × XmppSession)) (account_id : ℤ) :
    String × List (ℤ × XmppSession) :=
  match dictGet conns account_id with
  | none => ("", conns)
  | some xmpp =>
    let r := get_messages xmpp
    (String.join r.1, dictSet conns account_id r.2)

/-- _reconnect: connect only when at least 10 seconds passed since the
previous attempt; the Bool records whether connect() was called, the
second component is the returned last_connect value.  Wall-clock floats
are modelled as rationals. -/
def reconnect (last_connect cur_time : ℚ) : Bool × ℚ :=
  if cur_time - last_connect < 10 then (false, last_connect)
  else (true, cur_time)

/-- The offline iterations of the run_client loop: one _reconnect call
per iteration, threading last_connect; returns the times at which
connect() actually ran. -/
def reconnectRun (last_connect : ℚ) : List ℚ → List ℚ
  | [] => []
  | t :: ts =>
    let r := reconnect last_connect t
    if r.1 then t :: reconnectRun r.2 ts
    else reconnectRun r.2 ts

end Slixmppd

namespace Based

theorem findSub_nil : findSub [] eomBytes = none := by decide

theorem findSub_one (x : ℕ) : findSub [x] eomBytes = none := by
  simp [findSub, eomBytes, List.isPrefixOf]

theorem findSub_cons_cons (x y : ℕ) (t : List ℕ) :
    findSub (x :: y :: t) eomBytes =
      if x = 13 ∧ y = 10 then some 0
      else (findSub (y :: t) eomBytes).map (fun i => i + 1) := by
  by_cases h : x = 13 ∧ y = 10
  · obtain ⟨rfl, rfl⟩ := h
    simp [findSub, eomBytes, List.isPrefixOf]
  · rw [if_neg h]
    have hb : List.isPrefixOf eomBytes (x :: y :: t) = false := by
      rw [Bool.eq_false_iff]
      intro hc
      rw [ List.isPrefixOf_iff_prefix] at hc
      obtain ⟨s, hs⟩ := hc
      simp only [eomBytes, List.cons_append, List.nil_append] at hs
      injection hs with h1 hs2
      injection hs2 with h2 _
      exact h ⟨h1.symm, h2.symm⟩
    simp only [findSub]
    rw [if_neg (by rw [hb]; exact Bool.false_ne_true)]

/-- A findSub result for the delimiter bounds the list length. -/
theorem findSub_eom_bound (l : List ℕ) : ∀ j : ℕ, findSub l eomBytes = some j → j + 2 ≤ l.length := by
  induction l with
  | nil => intro j hj; rw [findSub_nil] at hj; exact absurd hj (by simp)
  | cons x rest ih =>
    intro j hj
    cases rest with
    | nil => rw [findSub_one] at hj; exact absurd hj (by simp)
    | cons y t =>
      rw [findSub_cons_cons] at hj
      by_cases h : x = 13 ∧ y = 10
      · rw [if_pos h] at hj
        obtain rfl : 0 = j := Option.some.inj hj
        simp only [List.length_cons]
        omega
      · rw [if_neg h] at hj
        rcases hmap : findSub (y :: t) eomBytes with _ | j0
        · rw [hmap] at hj; simp at hj
        · rw [hmap] at hj
          obtain rfl : j0 + 1 = j := Option.some.inj hj
          have := ih j0 hmap
          simp only [List.length_cons] at this ⊢
          omega

/-- The first delimiter occurrence is unaffected by appending bytes. -/
theorem findSub_append (l : List ℕ) : ∀ (i : ℕ) (c : List ℕ),
    findSub l eomBytes = some i → findSub (l ++ c) eomBytes = some i := by
  induction l with
  | nil => intro i c h; rw [findSub_nil] at h; exact absurd h (by simp)
  | cons x rest ih =>
    intro i c h
    cases rest with
    | nil => rw [findSub_one] at h; exact absurd h (by simp)
    | cons y t =>
      rw [findSub_cons_cons] at h
      by_cases hxy : x = 13 ∧ y = 10
      · rw [if_pos hxy] at h
        obtain rfl : 0 = i := Option.some.inj h
        show findSub (x :: y :: (t ++ c)) eomBytes = some 0
        rw [findSub_cons_cons, if_pos hxy]
      · rw [if_neg hxy] at h
        rcases hmap : findSub (y :: t) eomBytes with _ | j0
        · rw [hmap] at h; exact absurd h (by simp)
        · rw [hmap] at h
          obtain rfl : j0 + 1 = i := Option.some.inj h
          show findSub (x :: y :: (t ++ c)) eomBytes = some (j0 + 1)
          rw [findSub_cons_cons, if_neg hxy]
          have := ih j0 c hmap
          rw [show (y :: t) ++ c = y :: (t ++ c) from rfl] at this
          rw [this]
          rfl

/-- Any fuel at least the buffer length gives the same handleMessagesF
result (each loop iteration consumes at least two bytes). -/
theorem handleMessagesF_irrel (env : CbEnv) : ∀ (fuel1 fuel2 : ℕ) (st : DState) (b : List ℕ),
    b.length ≤ fuel1 → b.length ≤ fuel2 →
    handleMessagesF env fuel1 st b = handleMessagesF env fuel2 st b := by
  intro fuel1
  induction fuel1 with
  | zero =>
    intro fuel2 st b h1 _
    have hb : b = [] := List.eq_nil_of_length_eq_zero (by omega)
    subst hb
    cases fuel2 with
    | zero => rfl
    | succ f => rw [show handleMessagesF env 0 st [] = Except.ok ⟨st, [], [], [], HMRet.noneRet⟩ from rfl]
                simp [handleMessagesF, findSub_nil]
  | succ f1 ih =>
    intro fuel2 st b h1 h2
    cases fuel2 with
    | zero =>
      have hb : b = [] := List.eq_nil_of_length_eq_zero (by omega)
      subst hb
      simp [handleMessagesF, findSub_nil]
    | succ f2 =>
      simp only [handleMessagesF]
      cases hfs : findSub b eomBytes with
      | none => rfl
      | some eom =>
        have hbound := findSub_eom_bound b eom hfs
        simp only []
        cases hdec : utf8DecodeStr (b.take eom) with
        | none => rfl
        | some m =>
          simp only []
          cases hmsg : handle_msg m env st with
          | error e => rfl
          | ok r =>
            obtain ⟨cmd, reply, st1⟩ := r
            simp only []
            by_cases hterm : cmd = "bye" ∨ cmd = "quit"
            · rw [if_pos hterm, if_pos hterm]
            · rw [if_neg hterm, if_neg hterm]
              rw [ih f2 st1 (b.drop (eom + 2))
                (by simp only [List.length_drop]; omega)
                (by simp only [List.length_drop]; omega)]

/-- handle_messages unfolds to one step of the loop (the fuel of the
definition is irrelevant). -/
theorem handle_messages_eq (env : CbEnv) (st : DState) (b : List ℕ) :
    handle_messages env st b =
      match findSub b eomBytes with
      | none => Except.ok ⟨st, b, [], [], HMRet.noneRet⟩
      | some eom =>
        match utf8DecodeStr (b.take eom) with
        | none => Except.ok ⟨st, b.drop (eom + 2), [], [], HMRet.tupleRet "bye"⟩
        | some m =>
          match handle_msg m env st with
          | Except.error e => Except.error e
          | Except.ok (cmd, reply, st1) =>
            let sentNow : List String := if cmd = "msg" ∧ reply ≠ "" then [reply] else []
            if cmd = "bye" ∨ cmd = "quit" then
              Except.ok ⟨st1, b.drop (eom + 2), [m], sentNow, HMRet.strRet cmd⟩
            else
              match handle_messages env st1 (b.drop (eom + 2)) with
              | Except.error e => Except.error e
              | Except.ok out =>
                Except.ok ⟨out.st, out.buffer, m :: out.dispatched,
                  sentNow ++ out.sent, out.ret⟩ := by
  show handleMessagesF env b.length st b = _
  rw [handleMessagesF_irrel env b.length (b.length + 1) st b (by omega) (by omega)]
  simp only [handleMessagesF]
  cases hfs : findSub b eomBytes with
  | none => rfl
  | some eom =>
    have hbound := findSub_eom_bound b eom hfs
    simp only []
    cases hdec : utf8DecodeStr (b.take eom) with
    | none => rfl
    | some m =>
      simp only []
      cases hmsg : handle_msg m env st with
      | error e => rfl
      | ok r =>
        obtain ⟨cmd, reply, st1⟩ := r
        simp only []
        by_cases hterm : cmd = "bye" ∨ cmd = "quit"
        · rw [if_pos hterm, if_pos hterm]
        · rw [if_neg hterm, if_neg hterm]
          rw [show handleMessagesF env b.length st1 (b.drop (eom + 2)) =
            handle_messages env st1 (b.drop (eom + 2)) from
            handleMessagesF_irrel env b.length (b.drop (eom + 2)).length st1 _
              (by simp only [List.length_drop]; omega) (by omega)]

theorem prependHM_nil (x : Except PyErr HMOut) : prependHM [] [] x = x := by
  cases x with
  | error e => rfl
  | ok out => rfl

theorem hm_none (env : CbEnv) (st : DState) (b : List ℕ)
    (h : findSub b eomBytes = none) :
    handle_messages env st b = Except.ok ⟨st, b, [], [], HMRet.noneRet⟩ := by
  rw [handle_messages_eq, h]

theorem hm_decodeFail (env : CbEnv) (st : DState) (b : List ℕ) (eom : ℕ)
    (h : findSub b eomBytes = some eom)
    (hd : utf8DecodeStr (b.take eom) = none) :
    handle_messages env st b =
      Except.ok ⟨st, b.drop (eom + 2), [], [], HMRet.tupleRet "bye"⟩ := by
  rw [handle_messages_eq, h]
  simp only []
  rw [hd]

theorem hm_dispatch_error (env : CbEnv) (st : DState) (b : List ℕ) (eom : ℕ)
    (m : String) (e : PyErr)
    (h : findSub b eomBytes = some eom)
    (hd : utf8DecodeStr (b.take eom) = some m)
    (hmsg : handle_msg m env st = Except.error e) :
    handle_messages env st b = Except.error e := by
  rw [handle_messages_eq, h]
  simp only []
  rw [hd]
  simp only []
  rw [hmsg]

theorem hm_terminal (env : CbEnv) (st : DState) (b : List ℕ) (eom : ℕ)
    (m cmd reply : String) (st1 : DState)
    (h : findSub b eomBytes = some eom)
    (hd : utf8DecodeStr (b.take eom) = some m)
    (hmsg : handle_msg m env st = Except.ok (cmd, reply, st1))
    (hterm : cmd = "bye" ∨ cmd = "quit") :
    handle_messages env st b =
      Except.ok ⟨st1, b.drop (eom + 2), [m],
        if cmd = "msg" ∧ reply ≠ "" then [reply] else [], HMRet.strRet cmd⟩ := by
  rw [handle_messages_eq, h]
  simp only []
  rw [hd]
  simp only []
  rw [hmsg]
  simp only []
  rw [if_pos hterm]

theorem hm_step (env : CbEnv) (st : DState) (b : List ℕ) (eom : ℕ)
    (m cmd reply : String) (st1 : DState)
    (h : findSub b eomBytes = some eom)
    (hd : utf8DecodeStr (b.take eom) = some m)
    (hmsg : handle_msg m env st = Except.ok (cmd, reply, st1))
    (hterm : ¬ (cmd = "bye" ∨ cmd = "quit")) :
    handle_messages env st b =
      prependHM [m] (if cmd = "msg" ∧ reply ≠ "" then [reply] else [])
        (handle_messages env st1 (b.drop (eom + 2))) := by
  rw [handle_messages_eq, h]
  simp only []
  rw [hd]
  simp only []
  rw [hmsg]
  simp only []
  rw [if_neg hterm]
  cases hrec : handle_messages env st1 (b.drop (eom + 2)) with
  | error e => rfl
  | ok out => rfl

end Based

namespace Based

theorem prependHM_comp (d s d' s' : List String) (x : Except PyErr HMOut) :
    prependHM d s (prependHM d' s' x) = prependHM (d ++ d') (s ++ s') x := by
  cases x with
  | error e => rfl
  | ok out => simp [prependHM]

/-- Appending further read bytes to the buffer leaves the already
processed frames untouched: handle_messages on the extended buffer
produces the same dispatches/replies/state and continues scanning in the
leftover plus the new bytes (no-frame return), or stops at the very same
terminal result (decode failure or bye/quit). -/
theorem hm_append (env : CbEnv) : ∀ (n : ℕ) (st : DState) (b : List ℕ), b.length ≤ n →
    ∀ c : List ℕ,
    (∀ e, handle_messages env st b = Except.error e →
      handle_messages env st (b ++ c) = Except.error e) ∧
    (∀ out, handle_messages env st b = Except.ok out →
      (out.ret = HMRet.noneRet →
        handle_messages env st (b ++ c) =
          prependHM out.dispatched out.sent (handle_messages env out.st (out.buffer ++ c))) ∧
      (out.ret ≠ HMRet.noneRet →
        handle_messages env st (b ++ c) =
          Except.ok ⟨out.st, out.buffer ++ c, out.dispatched, out.sent, out.ret⟩)) := by
  intro n
  induction n with
  | zero =>
    intro st b hlen c
    have hb : b = [] := List.eq_nil_of_length_eq_zero (by omega)
    subst hb
    have h0 := hm_none env st [] findSub_nil
    refine ⟨?_, ?_⟩
    · intro e he
      rw [h0] at he
      exact absurd he (by simp)
    · intro out hout
      rw [h0] at hout
      obtain rfl := (Except.ok.inj hout).symm
      refine ⟨?_, ?_⟩
      · intro _
        rw [prependHM_nil]
      · intro hne
        exact absurd rfl hne
  | succ n ih =>
    intro st b hlen c
    cases hfs : findSub b eomBytes with
    | none =>
      have h0 := hm_none env st b hfs
      refine ⟨?_, ?_⟩
      · intro e he
        rw [h0] at he
        exact absurd he (by simp)
      · intro out hout
        rw [h0] at hout
        obtain rfl := (Except.ok.inj hout).symm
        refine ⟨?_, ?_⟩
        · intro _
          rw [prependHM_nil]
        · intro hne
          exact absurd rfl hne
    | some eom =>
      have hbound := findSub_eom_bound b eom hfs
      have hfs2 : findSub (b ++ c) eomBytes = some eom := findSub_append b eom c hfs
      have htake : (b ++ c).take eom = b.take eom :=
        List.take_append_of_le_length (by omega)
      have hdrop : (b ++ c).drop (eom + 2) = b.drop (eom + 2) ++ c :=
        List.drop_append_of_le_length (by omega)
      cases hdec : utf8DecodeStr (b.take eom) with
      | none =>
        have h0 := hm_decodeFail env st b eom hfs hdec
        have h1 : handle_messages env st (b ++ c) =
            Except.ok ⟨st, b.drop (eom + 2) ++ c, [], [], HMRet.tupleRet "bye"⟩ := by
          rw [hm_decodeFail env st (b ++ c) eom hfs2 (by rw [htake]; exact hdec), hdrop]
        refine ⟨?_, ?_⟩
        · intro e he
          rw [h0] at he
          exact absurd he (by simp)
        · intro out hout
          rw [h0] at hout
          obtain rfl := (Except.ok.inj hout).symm
          refine ⟨?_, ?_⟩
          · intro hne
            exact absurd hne (by simp)
          · intro _
            exact h1
      | some m =>
        cases hmsg : handle_msg m env st with
        | error e0 =>
          have h0 := hm_dispatch_error env st b eom m e0 hfs hdec hmsg
          have h1 : handle_messages env st (b ++ c) = Except.error e0 :=
            hm_dispatch_error env st (b ++ c) eom m e0 hfs2 (by rw [htake]; exact hdec) hmsg
          refine ⟨?_, ?_⟩
          · intro e he
            rw [h0] at he
            obtain rfl := Except.error.inj he
            exact h1
          · intro out hout
            rw [h0] at hout
            exact absurd hout (by simp)
        | ok r =>
          obtain ⟨cmd, reply, st1⟩ := r
          by_cases hterm : cmd = "bye" ∨ cmd = "quit"
          · have h0 := hm_terminal env st b eom m cmd reply st1 hfs hdec hmsg hterm
            have h1 : handle_messages env st (b ++ c) =
                Except.ok ⟨st1, b.drop (eom + 2) ++ c, [m],
                  if cmd = "msg" ∧ reply ≠ "" then [reply] else [], HMRet.strRet cmd⟩ := by
              rw [hm_terminal env st (b ++ c) eom m cmd reply st1 hfs2
                (by rw [htake]; exact hdec) hmsg hterm, hdrop]
            refine ⟨?_, ?_⟩
            · intro e he
              rw [h0] at he
              exact absurd he (by simp)
            · intro out hout
              rw [h0] at hout
              obtain rfl := (Except.ok.inj hout).symm
              refine ⟨?_, ?_⟩
              · intro hne
                exact absurd hne (by simp)
              · intro _
                exact h1
          · have h0 := hm_step env st b eom m cmd reply st1 hfs hdec hmsg hterm
            have h1 : handle_messages env st (b ++ c) =
                prependHM [m] (if cmd = "msg" ∧ reply ≠ "" then [reply] else [])
                  (handle_messages env st1 (b.drop (eom + 2) ++ c)) := by
              rw [hm_step env st (b ++ c) eom m cmd reply st1 hfs2
                (by rw [htake]; exact hdec) hmsg hterm, hdrop]
            obtain ⟨ihe, iho⟩ := ih st1 (b.drop (eom + 2))
              (by simp only [List.length_drop]; omega) c
            cases hrec : handle_messages env st1 (b.drop (eom + 2)) with
            | error e0 =>
              refine ⟨?_, ?_⟩
              · intro e he
                rw [h0, hrec] at he
                obtain rfl := Except.error.inj he
                rw [h1, ihe e0 hrec]
                rfl
              · intro out hout
                rw [h0, hrec] at hout
                exact absurd hout (by simp [prependHM])
            | ok out1 =>
              refine ⟨?_, ?_⟩
              · intro e he
                rw [h0, hrec] at he
                exact absurd he (by simp [prependHM])
              · intro out hout
                rw [h0, hrec] at hout
                simp only [prependHM] at hout
                obtain rfl := (Except.ok.inj hout).symm
                obtain ⟨iho1, iho2⟩ := iho out1 hrec
                refine ⟨?_, ?_⟩
                · intro hnr
                  simp only [] at hnr
                  rw [h1, iho1 hnr, prependHM_comp]
                · intro hnr
                  simp only [] at hnr
                  rw [h1, iho2 hnr]
                  simp [prependHM]

end Based

namespace Based

/-- Any fuel at least the list length gives the same framesOfF result. -/
theorem framesOfF_irrel : ∀ (fuel1 fuel2 : ℕ) (l : List ℕ),
    l.length ≤ fuel1 → l.length ≤ fuel2 → framesOfF fuel1 l = framesOfF fuel2 l := by
  intro fuel1
  induction fuel1 with
  | zero =>
    intro fuel2 l h1 _
    have hl : l = [] := List.eq_nil_of_length_eq_zero (by omega)
    subst hl
    cases fuel2 with
    | zero => rfl
    | succ f => simp [framesOfF, findSub_nil]
  | succ f1 ih =>
    intro fuel2 l h1 h2
    cases fuel2 with
    | zero =>
      have hl : l = [] := List.eq_nil_of_length_eq_zero (by omega)
      subst hl
      simp [framesOfF, findSub_nil]
    | succ f2 =>
      simp only [framesOfF]
      cases hfs : findSub l eomBytes with
      | none => rfl
      | some i =>
        have hbound := findSub_eom_bound l i hfs
        simp only []
        rw [ih f2 (l.drop (i + 2))
          (by simp only [List.length_drop]; omega)
          (by simp only [List.length_drop]; omega)]

/-- framesOf unfolds to one scanning step. -/
theorem framesOf_eq (l : List ℕ) :
    framesOf l =
      match findSub l eomBytes with
      | none => ([], l)
      | some i =>
        (l.take i :: (framesOf (l.drop (i + 2))).1, (framesOf (l.drop (i + 2))).2) := by
  show framesOfF l.length l = _
  rw [framesOfF_irrel l.length (l.length + 1) l (by omega) (by omega)]
  simp only [framesOfF]
  cases hfs : findSub l eomBytes with
  | none => rfl
  | some i =>
    have hbound := findSub_eom_bound l i hfs
    simp only []
    rw [framesOfF_irrel l.length (l.drop (i + 2)).length (l.drop (i + 2))
      (by simp only [List.length_drop]; omega) (by omega)]
    rfl

/-- Facts about a successful handle_messages run: the leftover buffer is
never longer than the input; on a no-frame return the leftover holds no
delimiter, and the dispatched strings are exactly the decodings of all
complete frames with the leftover being the frame remainder; on a
decode-error return the buffer strictly shrank and some complete frame of
the input fails to decode. -/
theorem hm_ok_facts (env : CbEnv) : ∀ (n : ℕ) (st : DState) (b : List ℕ), b.length ≤ n →
    ∀ out, handle_messages env st b = Except.ok out →
    (out.buffer.length ≤ b.length ∧
     (out.ret = HMRet.noneRet →
       findSub out.buffer eomBytes = none ∧
       (framesOf b).1.map utf8DecodeStr = out.dispatched.map some ∧
       out.buffer = (framesOf b).2) ∧
     (∀ x, out.ret = HMRet.tupleRet x →
       out.buffer.length < b.length ∧
       ∃ f ∈ (framesOf b).1, utf8DecodeStr f = none)) := by
  intro n
  induction n with
  | zero =>
    intro st b hlen out hout
    have hb : b = [] := List.eq_nil_of_length_eq_zero (by omega)
    subst hb
    rw [hm_none env st [] findSub_nil] at hout
    obtain rfl := (Except.ok.inj hout).symm
    refine ⟨by simp, ?_, ?_⟩
    · intro _
      rw [framesOf_eq]
      simp [findSub_nil]
    · intro x hx
      exact absurd hx (by simp)
  | succ n ih =>
    intro st b hlen out hout
    cases hfs : findSub b eomBytes with
    | none =>
      rw [hm_none env st b hfs] at hout
      obtain rfl := (Except.ok.inj hout).symm
      refine ⟨by simp, ?_, ?_⟩
      · intro _
        rw [framesOf_eq, hfs]
        exact ⟨rfl, rfl, rfl⟩
      · intro x hx
        exact absurd hx (by simp)
    | some eom =>
      have hbound := findSub_eom_bound b eom hfs
      have hfeq : framesOf b =
          (b.take eom :: (framesOf (b.drop (eom + 2))).1, (framesOf (b.drop (eom + 2))).2) := by
        rw [framesOf_eq, hfs]
      cases hdec : utf8DecodeStr (b.take eom) with
      | none =>
        rw [hm_decodeFail env st b eom hfs hdec] at hout
        obtain rfl := (Except.ok.inj hout).symm
        refine ⟨by simp only [List.length_drop]; omega, ?_, ?_⟩
        · intro hx
          exact absurd hx (by simp)
        · intro x _
          refine ⟨by simp only [List.length_drop]; omega, b.take eom, ?_, hdec⟩
          rw [hfeq]
          simp
      | some m =>
        cases hmsg : handle_msg m env st with
        | error e0 =>
          rw [hm_dispatch_error env st b eom m e0 hfs hdec hmsg] at hout
          exact absurd hout (by simp)
        | ok r =>
          obtain ⟨cmd, reply, st1⟩ := r
          by_cases hterm : cmd = "bye" ∨ cmd = "quit"
          · rw [hm_terminal env st b eom m cmd reply st1 hfs hdec hmsg hterm] at hout
            obtain rfl := (Except.ok.inj hout).symm
            refine ⟨by simp only [List.length_drop]; omega, ?_, ?_⟩
            · intro hx
              exact absurd hx (by simp)
            · intro x hx
              exact absurd hx (by simp)
          · rw [hm_step env st b eom m cmd reply st1 hfs hdec hmsg hterm] at hout
            cases hrec : handle_messages env st1 (b.drop (eom + 2)) with
            | error e0 =>
              rw [hrec] at hout
              exact absurd hout (by simp [prependHM])
            | ok out1 =>
              rw [hrec] at hout
              simp only [prependHM] at hout
              obtain rfl := (Except.ok.inj hout).symm
              obtain ⟨ihlen, ihnone, ihtuple⟩ := ih st1 (b.drop (eom + 2))
                (by simp only [List.length_drop]; omega) out1 hrec
              refine ⟨by simp only [List.length_drop] at ihlen ⊢; omega, ?_, ?_⟩
              · intro hnr
                simp only [] at hnr
                obtain ⟨ih1, ih2, ih3⟩ := ihnone hnr
                refine ⟨ih1, ?_, ?_⟩
                · rw [hfeq]
                  simp only [List.map_cons, hdec, ih2]
                  simp
                · rw [hfeq]
                  exact ih3
              · intro x hx
                simp only [] at hx
                obtain ⟨ih1, f, hf, hfdec⟩ := ihtuple x hx
                refine ⟨by simp only [List.length_drop] at ih1 ⊢; omega, f, ?_, hfdec⟩
                rw [hfeq]
                exact List.mem_cons_of_mem _ hf

end Based

namespace Based

/-- Any fuel at least the buffer length gives the same drainLoopF result. -/
theorem drainLoopF_irrel (env : CbEnv) : ∀ (fuel1 fuel2 : ℕ) (st : DState) (b : List ℕ),
    b.length ≤ fuel1 → b.length ≤ fuel2 →
    drainLoopF env fuel1 st b = drainLoopF env fuel2 st b := by
  intro fuel1
  induction fuel1 with
  | zero =>
    intro fuel2 st b h1 _
    have hb : b = [] := List.eq_nil_of_length_eq_zero (by omega)
    subst hb
    cases fuel2 with
    | zero => rfl
    | succ f =>
      show handle_messages env st [] = _
      simp only [drainLoopF]
      rw [hm_none env st [] findSub_nil]
  | succ f1 ih =>
    intro fuel2 st b h1 h2
    cases fuel2 with
    | zero =>
      have hb : b = [] := List.eq_nil_of_length_eq_zero (by omega)
      subst hb
      show _ = handle_messages env st []
      simp only [drainLoopF]
      rw [hm_none env st [] findSub_nil]
    | succ f2 =>
      simp only [drainLoopF]
      cases hm : handle_messages env st b with
      | error e => rfl
      | ok out =>
        simp only []
        cases hret : out.ret with
        | noneRet => rfl
        | strRet cmd => rfl
        | tupleRet x =>
          obtain ⟨-, -, htup⟩ := hm_ok_facts env b.length st b (by omega) out hm
          obtain ⟨hshrink, -⟩ := htup x hret
          rw [ih f2 out.st out.buffer (by omega) (by omega)]

/-- drainLoop unfolds to one handle_messages call, looping only on the
decode-error ("bye", error) pair return. -/
theorem drainLoop_eq (env : CbEnv) (st : DState) (b : List ℕ) :
    drainLoop env st b =
      match handle_messages env st b with
      | Except.error e => Except.error e
      | Except.ok out =>
        match out.ret with
        | HMRet.tupleRet _ =>
          prependHM out.dispatched out.sent (drainLoop env out.st out.buffer)
        | _ => Except.ok out := by
  show drainLoopF env b.length st b = _
  rw [drainLoopF_irrel env b.length (b.length + 1) st b (by omega) (by omega)]
  simp only [drainLoopF]
  cases hm : handle_messages env st b with
  | error e => rfl
  | ok out =>
    simp only []
    cases hret : out.ret with
    | noneRet => rfl
    | strRet cmd => rfl
    | tupleRet x =>
      obtain ⟨-, -, htup⟩ := hm_ok_facts env b.length st b (by omega) out hm
      obtain ⟨hshrink, -⟩ := htup x hret
      rw [show drainLoopF env b.length out.st out.buffer = drainLoop env out.st out.buffer from
        drainLoopF_irrel env b.length out.buffer.length out.st out.buffer (by omega) (by omega)]
      cases drainLoop env out.st out.buffer with
      | error e => rfl
      | ok out2 => rfl

theorem drainLoop_hm_error (env : CbEnv) (st : DState) (b : List ℕ) (e : PyErr)
    (hm : handle_messages env st b = Except.error e) :
    drainLoop env st b = Except.error e := by
  rw [drainLoop_eq, hm]

theorem drainLoop_ok_none (env : CbEnv) (st : DState) (b : List ℕ) (h1 : HMOut)
    (hm : handle_messages env st b = Except.ok h1) (hret : h1.ret = HMRet.noneRet) :
    drainLoop env st b = Except.ok h1 := by
  rw [drainLoop_eq, hm]
  simp only []
  rw [hret]

theorem drainLoop_ok_str (env : CbEnv) (st : DState) (b : List ℕ) (h1 : HMOut) (cmd : String)
    (hm : handle_messages env st b = Except.ok h1) (hret : h1.ret = HMRet.strRet cmd) :
    drainLoop env st b = Except.ok h1 := by
  rw [drainLoop_eq, hm]
  simp only []
  rw [hret]

theorem drainLoop_ok_tuple (env : CbEnv) (st : DState) (b : List ℕ) (h1 : HMOut) (x : String)
    (hm : handle_messages env st b = Except.ok h1) (hret : h1.ret = HMRet.tupleRet x) :
    drainLoop env st b =
      prependHM h1.dispatched h1.sent (drainLoop env h1.st h1.buffer) := by
  rw [drainLoop_eq, hm]
  simp only []
  rw [hret]

/-- A successful drainLoop never ends on the decode-error pair, and a
no-frame end leaves no delimiter in the buffer. -/
theorem drain_ok_facts (env : CbEnv) : ∀ (n : ℕ) (st : DState) (b : List ℕ), b.length ≤ n →
    ∀ out, drainLoop env st b = Except.ok out →
    (∀ x, out.ret ≠ HMRet.tupleRet x) ∧
    (out.ret = HMRet.noneRet → findSub out.buffer eomBytes = none) := by
  intro n
  induction n with
  | zero =>
    intro st b hlen out hout
    have hb : b = [] := List.eq_nil_of_length_eq_zero (by omega)
    subst hb
    rw [drainLoop_ok_none env st [] ⟨st, [], [], [], HMRet.noneRet⟩
      (hm_none env st [] findSub_nil) rfl] at hout
    obtain rfl := (Except.ok.inj hout).symm
    exact ⟨by simp, fun _ => findSub_nil⟩
  | succ n ih =>
    intro st b hlen out hout
    cases hm : handle_messages env st b with
    | error e =>
      rw [drainLoop_hm_error env st b e hm] at hout
      exact absurd hout (by simp)
    | ok h1 =>
      obtain ⟨hlen1, hnone1, htup1⟩ := hm_ok_facts env b.length st b (by omega) h1 hm
      cases hret : h1.ret with
      | noneRet =>
        rw [drainLoop_ok_none env st b h1 hm hret] at hout
        obtain rfl := (Except.ok.inj hout).symm
        exact ⟨by simp [hret], fun _ => (hnone1 hret).1⟩
      | strRet cmd =>
        rw [drainLoop_ok_str env st b h1 cmd hm hret] at hout
        obtain rfl := (Except.ok.inj hout).symm
        exact ⟨by simp [hret], by simp [hret]⟩
      | tupleRet x =>
        rw [drainLoop_ok_tuple env st b h1 x hm hret] at hout
        obtain ⟨hshrink, -⟩ := htup1 x hret
        cases hrec : drainLoop env h1.st h1.buffer with
        | error e =>
          rw [hrec] at hout
          exact absurd hout (by simp [prependHM])
        | ok out2 =>
          rw [hrec] at hout
          simp only [prependHM] at hout
          obtain rfl := (Except.ok.inj hout).symm
          obtain ⟨ih1, ih2⟩ := ih h1.st h1.buffer (by omega) out2 hrec
          exact ⟨by simpa using ih1, by simpa using ih2⟩

/-- drainLoop analogue of hm_append: appended bytes do not disturb the
frames already handled. -/
theorem drain_append (env : CbEnv) : ∀ (n : ℕ) (st : DState) (b : List ℕ), b.length ≤ n →
    ∀ c : List ℕ,
    (∀ e, drainLoop env st b = Except.error e →
      drainLoop env st (b ++ c) = Except.error e) ∧
    (∀ out, drainLoop env st b = Except.ok out →
      (out.ret = HMRet.noneRet →
        drainLoop env st (b ++ c) =
          prependHM out.dispatched out.sent (drainLoop env out.st (out.buffer ++ c))) ∧
      (∀ cmd, out.ret = HMRet.strRet cmd →
        drainLoop env st (b ++ c) =
          Except.ok ⟨out.st, out.buffer ++ c, out.dispatched, out.sent, out.ret⟩)) := by
  intro n
  induction n with
  | zero =>
    intro st b hlen c
    have hb : b = [] := List.eq_nil_of_length_eq_zero (by omega)
    subst hb
    have h0 : drainLoop env st [] = Except.ok ⟨st, [], [], [], HMRet.noneRet⟩ :=
      drainLoop_ok_none env st [] _ (hm_none env st [] findSub_nil) rfl
    refine ⟨?_, ?_⟩
    · intro e he
      rw [h0] at he
      exact absurd he (by simp)
    · intro out hout
      rw [h0] at hout
      obtain rfl := (Except.ok.inj hout).symm
      refine ⟨?_, ?_⟩
      · intro _
        rw [prependHM_nil]
      · intro cmd hc
        exact absurd hc (by simp)
  | succ n ih =>
    intro st b hlen c
    obtain ⟨hmerr, hmok⟩ := hm_append env (b.length) st b (by omega) c
    cases hm : handle_messages env st b with
    | error e0 =>
      have h0 := drainLoop_hm_error env st b e0 hm
      have h1 := drainLoop_hm_error env st (b ++ c) e0 (hmerr e0 hm)
      refine ⟨?_, ?_⟩
      · intro e he
        rw [h0] at he
        obtain rfl := Except.error.inj he
        exact h1
      · intro out hout
        rw [h0] at hout
        exact absurd hout (by simp)
    | ok h1 =>
      obtain ⟨happ_none, happ_ne⟩ := hmok h1 hm
      obtain ⟨hlen1, hnone1, htup1⟩ := hm_ok_facts env b.length st b (by omega) h1 hm
      cases hret : h1.ret with
      | noneRet =>
        have h0 : drainLoop env st b = Except.ok h1 := drainLoop_ok_none env st b h1 hm hret
        have hbc := happ_none hret
        refine ⟨?_, ?_⟩
        · intro e he
          rw [h0] at he
          exact absurd he (by simp)
        · intro out hout
          rw [h0] at hout
          obtain rfl := Except.ok.inj hout
          refine ⟨?_, ?_⟩
          · intro _
            cases hX : handle_messages env h1.st (h1.buffer ++ c) with
            | error e =>
              rw [hX] at hbc
              simp only [prependHM] at hbc
              rw [drainLoop_hm_error env st (b ++ c) e hbc]
              rw [drainLoop_hm_error env h1.st (h1.buffer ++ c) e hX]
              rfl
            | ok out1 =>
              rw [hX] at hbc
              simp only [prependHM] at hbc
              cases hret1 : out1.ret with
              | noneRet =>
                rw [drainLoop_ok_none env st (b ++ c) _ hbc hret1]
                rw [drainLoop_ok_none env h1.st (h1.buffer ++ c) out1 hX hret1]
                simp [prependHM]
              | strRet cmd1 =>
                rw [drainLoop_ok_str env st (b ++ c) _ cmd1 hbc hret1]
                rw [drainLoop_ok_str env h1.st (h1.buffer ++ c) out1 cmd1 hX hret1]
                simp [prependHM]
              | tupleRet x1 =>
                rw [drainLoop_ok_tuple env st (b ++ c) _ x1 hbc hret1]
                rw [drainLoop_ok_tuple env h1.st (h1.buffer ++ c) out1 x1 hX hret1]
                rw [prependHM_comp]
          · intro cmd hc
            rw [hret] at hc
            exact absurd hc (by simp)
      | strRet cmd0 =>
        have h0 : drainLoop env st b = Except.ok h1 := drainLoop_ok_str env st b h1 cmd0 hm hret
        have hbc := happ_ne (by rw [hret]; simp)
        refine ⟨?_, ?_⟩
        · intro e he
          rw [h0] at he
          exact absurd he (by simp)
        · intro out hout
          rw [h0] at hout
          obtain rfl := Except.ok.inj hout
          refine ⟨?_, ?_⟩
          · intro hnr
            rw [hret] at hnr
            exact absurd hnr (by simp)
          · intro cmd hc
            exact drainLoop_ok_str env st (b ++ c) _ cmd0 hbc (by rw [hret])
      | tupleRet x =>
        obtain ⟨hshrink, -⟩ := htup1 x hret
        have h0 := drainLoop_ok_tuple env st b h1 x hm hret
        have hbc := happ_ne (by rw [hret]; simp)
        have h1bc : drainLoop env st (b ++ c) =
            prependHM h1.dispatched h1.sent (drainLoop env h1.st (h1.buffer ++ c)) :=
          drainLoop_ok_tuple env st (b ++ c) _ x hbc (by rw [hret])
        obtain ⟨ihe, iho⟩ := ih h1.st h1.buffer (by omega) c
        cases hrec : drainLoop env h1.st h1.buffer with
        | error e0 =>
          refine ⟨?_, ?_⟩
          · intro e he
            rw [h0, hrec] at he
            simp only [prependHM] at he
            obtain rfl := Except.error.inj he
            rw [h1bc, ihe e0 hrec]
            rfl
          · intro out hout
            rw [h0, hrec] at hout
            exact absurd hout (by simp [prependHM])
        | ok out2 =>
          obtain ⟨iho1, iho2⟩ := iho out2 hrec
          refine ⟨?_, ?_⟩
          · intro e he
            rw [h0, hrec] at he
            exact absurd he (by simp [prependHM])
          · intro out hout
            rw [h0, hrec] at hout
            simp only [prependHM] at hout
            obtain rfl := (Except.ok.inj hout).symm
            refine ⟨?_, ?_⟩
            · intro hnr
              simp only [] at hnr
              rw [h1bc, iho1 hnr, prependHM_comp]
            · intro cmd hc
              simp only [] at hc
              rw [h1bc, iho2 cmd hc]
              simp [prependHM]

end Based

namespace Based

/-- When every complete frame decodes, a no-frame drainLoop end
dispatched exactly the decoded frames and kept the remainder. -/
theorem drain_frames (env : CbEnv) (st : DState) (b : List ℕ) (out : HMOut)
    (h : drainLoop env st b = Except.ok out) (hnr : out.ret = HMRet.noneRet)
    (hdec : ∀ f ∈ (framesOf b).1, utf8DecodeStr f ≠ none) :
    (framesOf b).1.map utf8DecodeStr = out.dispatched.map some ∧
    out.buffer = (framesOf b).2 := by
  cases hm : handle_messages env st b with
  | error e =>
    rw [drainLoop_hm_error env st b e hm] at h
    exact absurd h (by simp)
  | ok h1 =>
    obtain ⟨hlen1, hnone1, htup1⟩ := hm_ok_facts env b.length st b (by omega) h1 hm
    cases hret : h1.ret with
    | noneRet =>
      rw [drainLoop_ok_none env st b h1 hm hret] at h
      obtain rfl := (Except.ok.inj h).symm
      obtain ⟨-, h2, h3⟩ := hnone1 hret
      exact ⟨h2, h3⟩
    | strRet cmd =>
      rw [drainLoop_ok_str env st b h1 cmd hm hret] at h
      obtain rfl := (Except.ok.inj h).symm
      exact absurd hnr (by simp [hret])
    | tupleRet x =>
      obtain ⟨-, f, hf, hfd⟩ := htup1 x hret
      exact absurd hfd (hdec f hf)

end Based

namespace Based

theorem agree_refl (x : Except PyErr ReaderResult) : agree x x := by
  cases x with
  | error e => exact rfl
  | ok r => exact ⟨rfl, rfl, rfl, rfl, fun _ => rfl⟩

theorem outcomeMap_prepend (d s : List String) (x : Except PyErr HMOut) :
    outcomeMap (prependHM d s x) = prependR d s (outcomeMap x) := by
  cases x with
  | error e => rfl
  | ok out => rfl

theorem agree_prepend (d s : List String) (x y : Except PyErr ReaderResult)
    (h : agree x y) : agree (prependR d s x) (prependR d s y) := by
  cases x with
  | error e =>
    cases y with
    | error e2 => exact h
    | ok r => exact absurd h (by simp [agree])
  | ok r =>
    cases y with
    | error e2 => exact absurd h (by simp [agree])
    | ok r2 =>
      obtain ⟨h1, h2, h3, h4, h5⟩ := h
      exact ⟨h1, by rw [h2], by rw [h3], h4, fun ho => by
        simp only [prependR] at ho ⊢
        rw [h5 ho]⟩

theorem runReader_nil (env : CbEnv) (st : DState) (buf : List ℕ) :
    runReader env st buf [] = outcomeMap (drainLoop env st buf) := by
  simp only [runReader]
  cases drainLoop env st buf with
  | error e => rfl
  | ok out => rfl

theorem runReader_cons (env : CbEnv) (st : DState) (buf c : List ℕ) (cs : List (List ℕ))
    (out : HMOut) (hD : drainLoop env st (buf ++ c) = Except.ok out)
    (hret : out.ret = HMRet.noneRet) :
    runReader env st buf (c :: cs) =
      prependR out.dispatched out.sent (runReader env out.st out.buffer cs) := by
  simp only [runReader]
  rw [hD]
  simp only []
  rw [hret]
  cases runReader env out.st out.buffer cs with
  | error e => rfl
  | ok r => rfl

theorem runReader_cons_str (env : CbEnv) (st : DState) (buf c : List ℕ) (cs : List (List ℕ))
    (out : HMOut) (cmd : String) (hD : drainLoop env st (buf ++ c) = Except.ok out)
    (hret : out.ret = HMRet.strRet cmd) :
    runReader env st buf (c :: cs) =
      Except.ok ⟨out.st, out.buffer, out.dispatched, out.sent, some cmd⟩ := by
  simp only [runReader]
  rw [hD]
  simp only []
  rw [hret]

theorem runReader_cons_error (env : CbEnv) (st : DState) (buf c : List ℕ)
    (cs : List (List ℕ)) (e : PyErr) (hD : drainLoop env st (buf ++ c) = Except.error e) :
    runReader env st buf (c :: cs) = Except.error e := by
  simp only [runReader]
  rw [hD]

/-- One read of `c` observes exactly the drain of the concatenated
buffer. -/
theorem runReader_single (env : CbEnv) (st : DState) (buf c : List ℕ) :
    runReader env st buf [c] = outcomeMap (drainLoop env st (buf ++ c)) := by
  cases hD : drainLoop env st (buf ++ c) with
  | error e =>
    rw [runReader_cons_error env st buf c [] e hD]
    rfl
  | ok out =>
    obtain ⟨hnt, hnn⟩ := drain_ok_facts env (buf ++ c).length st (buf ++ c) (by omega) out hD
    cases hret : out.ret with
    | noneRet =>
      rw [runReader_cons env st buf c [] out hD hret]
      rw [runReader_nil]
      have hdr : drainLoop env out.st out.buffer = Except.ok ⟨out.st, out.buffer, [], [], HMRet.noneRet⟩ :=
        drainLoop_ok_none env out.st out.buffer _ (hm_none env out.st out.buffer (hnn hret)) rfl
      rw [hdr]
      simp only [outcomeMap, prependR, retOutcome, hret]
      simp
    | strRet cmd =>
      rw [runReader_cons_str env st buf c [] out cmd hD hret]
      simp only [outcomeMap, retOutcome, hret]
    | tupleRet x =>
      exact absurd hret (hnt x)

/-- The reader over any chunk sequence agrees with a single drain of the
whole concatenation. -/
theorem runReader_chunks (env : CbEnv) : ∀ (cs : List (List ℕ)) (st : DState) (buf : List ℕ),
    agree (runReader env st buf cs) (outcomeMap (drainLoop env st (buf ++ cs.flatten))) := by
  intro cs
  induction cs with
  | nil =>
    intro st buf
    rw [runReader_nil]
    rw [show buf ++ List.flatten [] = buf by simp]
    exact agree_refl _
  | cons c cs ih =>
    intro st buf
    have hjoin : buf ++ (c :: cs).flatten = (buf ++ c) ++ cs.flatten := by
      simp [List.flatten]
    rw [hjoin]
    obtain ⟨hde, hdo⟩ := drain_append env (buf ++ c).length st (buf ++ c) (by omega) cs.flatten
    cases hD : drainLoop env st (buf ++ c) with
    | error e =>
      rw [runReader_cons_error env st buf c cs e hD]
      rw [hde e hD]
      exact rfl
    | ok out =>
      obtain ⟨hnt, -⟩ := drain_ok_facts env (buf ++ c).length st (buf ++ c) (by omega) out hD
      obtain ⟨hdon, hdos⟩ := hdo out hD
      cases hret : out.ret with
      | noneRet =>
        rw [runReader_cons env st buf c cs out hD hret]
        rw [hdon hret, outcomeMap_prepend]
        exact agree_prepend _ _ _ _ (ih out.st out.buffer)
      | strRet cmd =>
        rw [runReader_cons_str env st buf c cs out cmd hD hret]
        rw [hdos cmd hret]
        simp only [outcomeMap, retOutcome]
        exact ⟨rfl, rfl, rfl, by simp [hret, retOutcome], by simp [hret, retOutcome]⟩
      | tupleRet x =>
        exact absurd hret (hnt x)

end Based

/-- The loop of _get_account_id on a strictly sorted list of ids all
above `last` returns the smallest integer above `last` that is not in
the list. -/
theorem getAccountIdLoop_spec (l : List ℤ) : ∀ last : ℤ,
    List.Sorted (· < ·) l → (∀ a ∈ l, last < a) →
    last < Based.getAccountIdLoop l last ∧
    Based.getAccountIdLoop l last ∉ l ∧
    ∀ m : ℤ, last < m → m < Based.getAccountIdLoop l last → m ∈ l := by
  induction l with
  | nil =>
    intro last _ _
    refine ⟨by simp [Based.getAccountIdLoop], by simp, ?_⟩
    intro m h1 h2
    simp only [Based.getAccountIdLoop] at h2
    omega
  | cons a rest ih =>
    intro last hs hgt
    have ha : last < a := hgt a (by simp)
    have hrest : ∀ b ∈ rest, a < b := List.rel_of_sorted_cons hs
    have hs' : List.Sorted (· < ·) rest := List.Sorted.of_cons hs
    simp only [Based.getAccountIdLoop]
    by_cases hge : a - last ≥ 2
    · rw [if_pos hge]
      refine ⟨by omega, ?_, ?_⟩
      · intro hmem
        rcases List.mem_cons.mp hmem with h | h
        · omega
        · have := hrest _ h
          omega
      · intro m h1 h2
        omega
    · rw [if_neg hge]
      have heq : a - last = 1 := by omega
      rw [if_pos heq]
      obtain ⟨ih1, ih2, ih3⟩ := ih a hs' hrest
      refine ⟨by omega, ?_, ?_⟩
      · intro hmem
        rcases List.mem_cons.mp hmem with h | h
        · omega
        · exact ih2 h
      · intro m h1 h2
        by_cases hma : m = a
        · simp [hma]
        · have h3 : a < m := by omega
          exact List.mem_cons_of_mem _ (ih3 m h3 h2)

/-- _get_account_id over an arbitrary registry with distinct non-negative
ids returns the smallest non-negative id not in use. -/
theorem get_account_id_spec (accounts : List (ℤ × Based.Account))
    (hnd : (accounts.map (fun p => p.1)).Nodup)
    (hnn : ∀ k ∈ accounts.map (fun p => p.1), 0 ≤ k) :
    0 ≤ Based.get_account_id accounts ∧
    Based.get_account_id accounts ∉ accounts.map (fun p => p.1) ∧
    ∀ m : ℤ, 0 ≤ m → m < Based.get_account_id accounts →
      m ∈ accounts.map (fun p => p.1) := by
  by_cases hemp : accounts = []
  · subst hemp
    refine ⟨by simp [Based.get_account_id], by simp, ?_⟩
    intro m h1 h2
    simp [Based.get_account_id] at h2
    omega
  · rw [Based.get_account_id, if_neg hemp]
    have hperm : (List.insertionSort (· ≤ ·) (accounts.map (fun p => p.1))).Perm
        (accounts.map (fun p => p.1)) := List.perm_insertionSort _ _
    have hsle : List.Sorted (· ≤ ·) (List.insertionSort (· ≤ ·) (accounts.map (fun p => p.1))) :=
      List.sorted_insertionSort _ _
    have hnd' : (List.insertionSort (· ≤ ·) (accounts.map (fun p => p.1))).Nodup :=
      hperm.nodup_iff.mpr hnd
    have hslt : List.Sorted (· < ·) (List.insertionSort (· ≤ ·) (accounts.map (fun p => p.1))) :=
      hsle.lt_of_le hnd'
    have hgt : ∀ a ∈ List.insertionSort (· ≤ ·) (accounts.map (fun p => p.1)), (-1 : ℤ) < a := by
      intro a hmm
      have := hnn a (hperm.mem_iff.mp hmm)
      omega
    obtain ⟨h1, h2, h3⟩ := getAccountIdLoop_spec _ (-1) hslt hgt
    refine ⟨by omega, ?_, ?_⟩
    · intro hmem
      exact h2 (hperm.mem_iff.mpr hmem)
    · intro m hm0 hmlt
      exact hperm.mem_iff.mp (h3 m (by omega) hmlt)

/-- Assigning a fresh key to a Python dict appends the pair at the end. -/
theorem dictSet_append {α : Type} (l : List (ℤ × α)) (k : ℤ) (v : α)
    (h : k ∉ l.map (fun p => p.1)) : Based.dictSet l k v = l ++ [(k, v)] := by
  rw [Based.dictSet, if_neg]
  intro hc
  rw [List.any_eq_true] at hc
  obtain ⟨p, hp, hpk⟩ := hc
  rw [beq_iff_eq] at hpk
  exact h (hpk ▸ List.mem_map_of_mem (fun p => p.1) hp)

/-- Consecutive fired reconnects are at least 10 seconds apart, starting
from the initial last_connect value. -/
theorem reconnectRun_chain (ts : List ℚ) : ∀ last : ℚ,
    List.Chain' (fun a b => a + 10 ≤ b) (last :: Slixmppd.reconnectRun last ts) := by
  induction ts with
  | nil =>
    intro last
    simp [Slixmppd.reconnectRun]
  | cons t ts ih =>
    intro last
    simp only [Slixmppd.reconnectRun, Slixmppd.reconnect]
    by_cases h : t - last < 10
    · rw [if_pos h]
      simpa using ih last
    · rw [if_neg h]
      simp only []
      exact List.Chain'.cons (by linarith) (ih t)

/-- _chat_list only appends its lines to the message list. -/
theorem chat_list_fields (acct : Based.Account) (rooms : List String)
    (nicks : String → String) :
    ∀ s : Slixmppd.XmppSession,
      (Slixmppd.chat_list acct rooms nicks s).history = s.history ∧
      (Slixmppd.chat_list acct rooms nicks s).messages =
        s.messages ++ rooms.map
          (fun chat => Based.Format.CHAT_LIST acct.aid chat chat (nicks chat)) := by
  induction rooms with
  | nil => intro s; simp [Slixmppd.chat_list]
  | cons r rooms ih =>
    intro s
    simp only [Slixmppd.chat_list, List.foldl_cons, List.map_cons]
    have := ih { s with messages :=
      s.messages ++ [Based.Format.CHAT_LIST acct.aid r r (nicks r)] }
    simp only [Slixmppd.chat_list] at this
    rw [this.1, this.2]
    simp

/-- C1: _get_account_id returns the smallest non-negative integer not
already used as an account id (first gap, else one past the highest id),
0 for the empty registry; a registry holding ids 0 and 2 (as after
adding 0,1,2 and deleting 1) gets id 1 next, and a full registry 0,1,2
gets 3. -/
theorem get_account_id_allocates_first_free_id :
    (∀ accounts : List (ℤ × Based.Account),
      (accounts.map (fun p => p.1)).Nodup →
      (∀ k ∈ accounts.map (fun p => p.1), 0 ≤ k) →
      0 ≤ Based.get_account_id accounts ∧
      Based.get_account_id accounts ∉ accounts.map (fun p => p.1) ∧
      ∀ m : ℤ, 0 ≤ m → m < Based.get_account_id accounts →
        m ∈ accounts.map (fun p => p.1)) ∧
    Based.get_account_id [] = 0 ∧
    (∀ a b : Based.Account, Based.get_account_id [(0, a), (2, b)] = 1) ∧
    (∀ a b c : Based.Account, Based.get_account_id [(0, a), (1, b), (2, c)] = 3) :=
  ⟨get_account_id_spec, rfl, fun _ _ => rfl, fun _ _ _ => rfl⟩

/-- Witness for C1 at the registry holding ids 0 and 2. -/
theorem get_account_id_allocates_first_free_id_witness :
    0 ≤ Based.get_account_id [(0, Based.defaultAccount), (2, Based.defaultAccount)] ∧
    Based.get_account_id [(0, Based.defaultAccount), (2, Based.defaultAccount)] ∉
      ([(0, Based.defaultAccount), (2, Based.defaultAccount)].map (fun p => p.1)) :=
  ⟨(get_account_id_allocates_first_free_id.1 _ (by decide) (by decide)).1,
   (get_account_id_allocates_first_free_id.1 _ (by decide) (by decide)).2.1⟩

/-- C2 (amended): frame extraction is insensitive to read chunking: every
way of splitting the byte stream across successive reads produces the
same dispatched frame sequence, sent replies, dispatcher state and
terminal outcome as one single read of the concatenated stream, with the
same leftover buffer while the connection is still served; and whenever
every complete frame decodes and the run ends with the connection still
served, the dispatched sequence is exactly the decoded complete
CRLF-delimited frames of the concatenated stream, each exactly once and
in arrival order, with the trailing bytes not yet followed by the
delimiter kept in the buffer.  (The original unconditional claim fails:
a dispatched bye/quit frame stops dispatch of the remaining complete
frames, see the counterexample.) -/
theorem handle_messages_chunking_insensitive :
    (∀ (env : Based.CbEnv) (st : Based.DState) (cs : List (List ℕ)),
      Based.agree (Based.runReader env st [] cs)
        (Based.runReader env st [] [cs.flatten])) ∧
    (∀ (env : Based.CbEnv) (st : Based.DState) (cs : List (List ℕ))
       (r : Based.ReaderResult),
      Based.runReader env st [] cs = Except.ok r →
      r.outcome = none →
      (∀ f ∈ (Based.framesOf cs.flatten).1, Based.utf8DecodeStr f ≠ none) →
      (Based.framesOf cs.flatten).1.map Based.utf8DecodeStr = r.dispatched.map some ∧
      r.buffer = (Based.framesOf cs.flatten).2) := by
  constructor
  · intro env st cs
    rw [Based.runReader_single env st [] cs.flatten]
    exact Based.runReader_chunks env cs st []
  · intro env st cs r hr ho hdec
    have hag := Based.runReader_chunks env cs st []
    rw [hr] at hag
    rw [show ([] : List ℕ) ++ cs.flatten = cs.flatten from by simp] at hag
    cases hD : Based.drainLoop env st cs.flatten with
    | error e =>
      rw [hD] at hag
      exact absurd hag (by simp [Based.agree, Based.outcomeMap])
    | ok out =>
      rw [hD] at hag
      simp only [Based.outcomeMap] at hag
      obtain ⟨h1, h2, h3, h4, h5⟩ := hag
      simp only [] at h2 h4 h5
      obtain ⟨hnt, -⟩ :=
        Based.drain_ok_facts env cs.flatten.length st cs.flatten (by omega) out hD
      have hnr : out.ret = Based.HMRet.noneRet := by
        rw [ho] at h4
        cases hX : out.ret with
        | noneRet => rfl
        | strRet c =>
          rw [hX] at h4
          exact absurd h4.symm (by simp [Based.retOutcome])
        | tupleRet x => exact absurd hX (hnt x)
      obtain ⟨hfr, hbuf⟩ := Based.drain_frames env st cs.flatten out hD hnr hdec
      refine ⟨?_, ?_⟩
      · rw [hfr, h2]
      · rw [h5 ho, hbuf]

/-- Counterexample to C2 as stated: a one-read stream "bye\r\nhelp\r\n"
has two complete frames, but only "bye" is dispatched; the complete
frame "help" stays undispatched in the buffer when the connection is
dropped. -/
theorem handle_messages_bye_stops_dispatch_counterexample :
    Based.runReader Based.cbEnvNone Based.emptyState [] [Based.byeHelpBytes] =
      Except.ok ⟨Based.emptyState, [104, 101, 108, 112, 13, 10], ["bye"], [], some "bye"⟩ ∧
    (Based.framesOf Based.byeHelpBytes).1.map Based.utf8DecodeStr =
      [some "bye", some "help"] ∧
    ¬ (Based.framesOf Based.byeHelpBytes).1.map Based.utf8DecodeStr =
      List.map some ["bye"] :=
  ⟨rfl, rfl, by decide⟩

/-- Witness for C2 at the split "account li" / "st\r\n" of one command
over two reads. -/
theorem handle_messages_chunking_insensitive_witness :
    Based.agree
      (Based.runReader Based.cbEnvNone Based.exState [] [Based.accLiBytes, Based.stCrlfBytes])
      (Based.runReader Based.cbEnvNone Based.exState []
        [([Based.accLiBytes, Based.stCrlfBytes] : List (List ℕ)).flatten]) ∧
    (Based.framesOf ([Based.accLiBytes, Based.stCrlfBytes] : List (List ℕ)).flatten).1.map
        Based.utf8DecodeStr = List.map some ["account list"] := by
  refine ⟨handle_messages_chunking_insensitive.1 Based.cbEnvNone Based.exState _, ?_⟩
  have h := handle_messages_chunking_insensitive.2 Based.cbEnvNone Based.exState
    [Based.accLiBytes, Based.stCrlfBytes]
    ⟨Based.exState, [], ["account list"],
      ["account: 0 () xmpp alice@example.com [online]" ++ Based.Format.EOM], none⟩
    (by rfl) (by rfl) (by decide)
  exact h.1

/-- C3: contrary to the claim, the dispatcher is not total: the line
"account 0 send" with an existing account 0 raises IndexError out of
handle_msg (handle_account_send reads params[0] unguarded). -/
theorem handle_account_send_missing_params_raises :
    Based.handle_msg "account 0 send" Based.cbEnvNone Based.exState =
      Except.error Based.PyErr.indexError ∧
    Based.handle_account_send 0 [] Based.cbEnvNone Based.exState =
      Except.error Based.PyErr.indexError :=
  ⟨rfl, rfl⟩

/-- C4: contrary to the claim, an undecodable frame does not drop the
client: handle_messages returns the pair ("bye", error), which `handle`
compares unequal to the string "bye", so the loop keeps running and even
dispatches the following frame. -/
theorem decode_error_does_not_drop_connection :
    Based.handle_messages Based.cbEnvNone Based.emptyState Based.badByteFrame =
      Except.ok ⟨Based.emptyState, [120, 121, 122, 13, 10], [], [],
        Based.HMRet.tupleRet "bye"⟩ ∧
    Based.runReader Based.cbEnvNone Based.emptyState [] [Based.badByteFrame] =
      Except.ok ⟨Based.emptyState, [], ["xyz"], [], none⟩ :=
  ⟨rfl, rfl⟩

/-- C5: contrary to the claim, `account 0 buddies online` on a snapshot
with statuses "available"/"offline" returns no "buddy:" line at all: the
filter keeps only the capitalised spelling "Available", which the
backend never produces.  UPDATE_BUDDIES does fire first, and a buddy
with status "Available" would be listed. -/
theorem buddies_online_filter_case_mismatch :
    Based.handle_account_buddies 0 ["online"] Based.cbEnvNone Based.exBuddyState =
      Except.ok ("", ⟨Based.exBuddyState.accounts, 0,
        [(0, Based.Callback.UPDATE_BUDDIES)]⟩) ∧
    Based.handle_account_buddies 0 [] Based.cbEnvNone Based.exBuddyState =
      Except.ok (Based.Format.BUDDY 0 "available" "buddy1" "alias1" ++
          Based.Format.BUDDY 0 "offline" "buddy2" "alias2",
        ⟨Based.exBuddyState.accounts, 0, [(0, Based.Callback.UPDATE_BUDDIES)]⟩) ∧
    Based.handle_account_buddies 0 ["online"] Based.cbEnvNone Based.exBuddyStateCap =
      Except.ok (Based.Format.BUDDY 0 "Available" "buddy1" "alias1",
        ⟨Based.exBuddyStateCap.accounts, 0, [(0, Based.Callback.UPDATE_BUDDIES)]⟩) :=
  ⟨rfl, rfl, rfl⟩

/-- C6: account add with three parameters: a duplicate type+user pair
returns only the informational "account already exists." reply with the
registry, store count and callback trace unchanged; otherwise the new
account under the freshly allocated id is added (appended, as the id is
unused), the registry is persisted exactly once more, the ADD_ACCOUNT
callback fires exactly once, and the success notice is returned
(provided a registered ADD_ACCOUNT handler leaves the registry alone, as
the slixmppd one does). -/
theorem handle_account_add_contract (env : Based.CbEnv) (st : Based.DState)
    (t u pw : String) (rest : List String) :
    ((∃ p ∈ st.accounts, p.2.type = t ∧ p.2.user = u) →
      Based.handle_account_add (t :: u :: pw :: rest) env st =
        (Based.Format.INFO "account already exists.", st)) ∧
    ((¬ ∃ p ∈ st.accounts, p.2.type = t ∧ p.2.user = u) →
     (∀ f, env Based.Callback.ADD_ACCOUNT = some f →
        ∀ a ps accs, (f a ps accs).2 = accs) →
      Based.handle_account_add (t :: u :: pw :: rest) env st =
        (Based.Format.INFO "new account added.",
          ⟨Based.dictSet st.accounts (Based.get_account_id st.accounts)
             (Based.accountInit (Based.get_account_id st.accounts) t u pw),
           st.stores + 1,
           st.trace ++ [(Based.get_account_id st.accounts,
             Based.Callback.ADD_ACCOUNT)]⟩)) ∧
    ((st.accounts.map (fun p => p.1)).Nodup →
     (∀ k ∈ st.accounts.map (fun p => p.1), 0 ≤ k) →
      Based.dictSet st.accounts (Based.get_account_id st.accounts)
          (Based.accountInit (Based.get_account_id st.accounts) t u pw) =
        st.accounts ++ [(Based.get_account_id st.accounts,
          Based.accountInit (Based.get_account_id st.accounts) t u pw)]) := by
  have hlen : ¬ ((t :: u :: pw :: rest).length < 3) := by
    simp only [List.length_cons]
    omega
  have hget0 : (t :: u :: pw :: rest).getD 0 "" = t := rfl
  have hget1 : (t :: u :: pw :: rest).getD 1 "" = u := rfl
  have hget2 : (t :: u :: pw :: rest).getD 2 "" = pw := rfl
  refine ⟨?_, ?_, ?_⟩
  · intro hdup
    have hany : st.accounts.any
        (fun p => p.2.type ==
            (Based.accountInit (Based.get_account_id st.accounts) t u pw).type &&
          p.2.user ==
            (Based.accountInit (Based.get_account_id st.accounts) t u pw).user) = true := by
      rw [List.any_eq_true]
      obtain ⟨p, hp, ht, hu⟩ := hdup
      refine ⟨p, hp, ?_⟩
      simp [Based.accountInit, ht, hu]
    simp only [Based.handle_account_add, hget0, hget1, hget2]
    rw [if_neg hlen, if_pos hany]
  · intro hdup hpres
    have hany : st.accounts.any
        (fun p => p.2.type ==
            (Based.accountInit (Based.get_account_id st.accounts) t u pw).type &&
          p.2.user ==
            (Based.accountInit (Based.get_account_id st.accounts) t u pw).user) = false := by
      rw [Bool.eq_false_iff]
      intro hc
      rw [List.any_eq_true] at hc
      obtain ⟨p, hp, hpc⟩ := hc
      simp [Based.accountInit] at hpc
      exact hdup ⟨p, hp, hpc.1, hpc.2⟩
    simp only [Based.handle_account_add, hget0, hget1, hget2]
    rw [if_neg hlen, if_neg (by rw [hany]; exact Bool.false_ne_true)]
    simp only [Based.callback]
    cases henv : env Based.Callback.ADD_ACCOUNT with
    | none => simp [Based.accountInit]
    | some f =>
      simp only []
      rw [hpres f henv]
      simp [Based.accountInit]
  · intro hnd hnn
    exact dictSet_append st.accounts (Based.get_account_id st.accounts) _
      (get_account_id_spec st.accounts hnd hnn).2.1

/-- Witness for C6 on the empty registry. -/
theorem handle_account_add_contract_witness :
    Based.handle_account_add ["xmpp", "alice@example.com", "secret"] Based.cbEnvNone
        Based.emptyState =
      (Based.Format.INFO "new account added.",
        ⟨Based.dictSet Based.emptyState.accounts
           (Based.get_account_id Based.emptyState.accounts)
           (Based.accountInit (Based.get_account_id Based.emptyState.accounts)
             "xmpp" "alice@example.com" "secret"),
         Based.emptyState.stores + 1,
         Based.emptyState.trace ++ [(Based.get_account_id Based.emptyState.accounts,
           Based.Callback.ADD_ACCOUNT)]⟩) :=
  (handle_account_add_contract Based.cbEnvNone Based.emptyState "xmpp" "alice@example.com"
      "secret" []).2.1
    (by simp [Based.emptyState])
    (fun f hf => absurd hf (by simp [Based.cbEnvNone]))

/-- C7: an "account <id> <command> ..." line whose id token parses as an
integer that is not a registry key gets the reply "error: invalid
account" and the state is returned untouched (no callback fires, nothing
is stored, the registry is unchanged). -/
theorem handle_account_invalid_id_error (parts : List String) (env : Based.CbEnv)
    (st : Based.DState) (i : ℤ)
    (h1 : parts.length ≥ 3)
    (h2 : parts.getD 1 "" ≠ "list")
    (h3 : parts.getD 1 "" ≠ "add")
    (h4 : Based.pyIntOf (parts.getD 1 "") = some i)
    (h5 : Based.dictGet st.accounts i = none) :
    Based.handle_account parts env st =
      Except.ok (Based.Format.ERROR "invalid account", st) := by
  simp only [Based.handle_account]
  rw [if_neg h2, if_neg h3, if_pos h1, h4]
  simp only [h5, Option.isNone_none, if_pos]

/-- Witness for C7: deleting the non-existent id 5. -/
theorem handle_account_invalid_id_error_witness :
    Based.handle_account ["account", "5", "delete"] Based.cbEnvNone Based.exState =
      Except.ok (Based.Format.ERROR "invalid account", Based.exState) :=
  handle_account_invalid_id_error ["account", "5", "delete"] Based.cbEnvNone Based.exState 5
    (by decide) (by decide) (by decide) rfl rfl

/-- C8: collect returns the entire history: handle_account_collect
ignores the optional since parameter; NuqqlClient.collect hands out the
history without changing the session, so repeated collects agree;
get_messages drains only the message list and leaves the history (and
hence the collect result) unchanged; receiving a message appends it to
the collect result, which therefore only grows; and the module-level
collect_messages reply is exactly the joined full history. -/
theorem collect_returns_full_history :
    (∀ (acc_id : ℤ) (p q : List String) (env : Based.CbEnv) (st : Based.DState),
      Based.handle_account_collect acc_id p env st =
        Based.handle_account_collect acc_id q env st) ∧
    (∀ s : Slixmppd.XmppSession,
      (Slixmppd.collect s).2 = s ∧
      (Slixmppd.collect ((Slixmppd.collect s).2)).1 = (Slixmppd.collect s).1) ∧
    (∀ s : Slixmppd.XmppSession,
      (Slixmppd.get_messages s).1 = s.messages ∧
      (Slixmppd.get_messages s).2.history = s.history ∧
      (Slixmppd.get_messages ((Slixmppd.get_messages s).2)).1 = [] ∧
      (Slixmppd.collect ((Slixmppd.get_messages s).2)).1 = (Slixmppd.collect s).1) ∧
    (∀ (acct : Based.Account) (delay : Option ℤ) (now : ℤ) (f t b : String)
       (s : Slixmppd.XmppSession),
      (Slixmppd.collect (Slixmppd.message acct "chat" false delay now f t b s)).1 =
        (Slixmppd.collect s).1 ++ [Based.format_message acct (delay.getD now) f t b]) ∧
    (∀ (conns : List (ℤ × Slixmppd.XmppSession)) (aid : ℤ) (x : Slixmppd.XmppSession),
      Based.dictGet conns aid = some x →
      Slixmppd.collect_messages conns aid = String.join x.history) := by
  refine ⟨fun _ _ _ _ _ => rfl, fun s => ⟨rfl, rfl⟩, fun s => ⟨rfl, rfl, rfl, rfl⟩, ?_, ?_⟩
  · intro acct delay now f t b s
    simp [Slixmppd.message, Slixmppd.collect]
  · intro conns aid x h
    simp [Slixmppd.collect_messages, h, Slixmppd.collect]

/-- Witness for C8 at a one-session connection table. -/
theorem collect_returns_full_history_witness :
    Slixmppd.collect_messages
        [(0, ⟨[], [], ["hist1"], ["new1"], [], [], true⟩)] 0 =
      String.join (⟨[], [], ["hist1"], ["new1"], [], [], true⟩ :
        Slixmppd.XmppSession).history :=
  collect_returns_full_history.2.2.2.2
    [(0, ⟨[], [], ["hist1"], ["new1"], [], [], true⟩)] 0
    ⟨[], [], ["hist1"], ["new1"], [], [], true⟩ rfl

/-- C9: _reconnect connects and returns the current time exactly when at
least 10 seconds passed since the last attempt, and otherwise does not
connect and returns the previous attempt time unchanged; consequently,
over any busy-loop run, consecutive actual connect times (measured from
the initial last_connect) are at least 10 seconds apart. -/
theorem reconnect_backoff_ten_seconds :
    (∀ last t : ℚ, t - last < 10 → Slixmppd.reconnect last t = (false, last)) ∧
    (∀ last t : ℚ, 10 ≤ t - last → Slixmppd.reconnect last t = (true, t)) ∧
    (∀ (last : ℚ) (ts : List ℚ),
      List.Chain' (fun a b => a + 10 ≤ b) (last :: Slixmppd.reconnectRun last ts)) := by
  refine ⟨?_, ?_, fun last ts => reconnectRun_chain ts last⟩
  · intro last t h
    simp [Slixmppd.reconnect, if_pos h]
  · intro last t h
    simp only [Slixmppd.reconnect]
    rw [if_neg (by linarith)]

/-- Witness for C9 at concrete times 5 (suppressed) and 12 (connects). -/
theorem reconnect_backoff_ten_seconds_witness :
    Slixmppd.reconnect 0 5 = (false, 0) ∧ Slixmppd.reconnect 0 12 = (true, 12) :=
  ⟨reconnect_backoff_ten_seconds.1 0 5 (by norm_num),
   reconnect_backoff_ten_seconds.2.1 0 12 (by norm_num)⟩

/-- C10: incoming direct and group-chat messages are appended to both
the drain-on-read message list and the replayable history; group-chat
presence lines, status-get replies and chat-list lines are appended to
the message list only, so collect never replays them, while they are
observable in the GET_MESSAGES drain, which empties on read. -/
theorem presence_status_chatlist_not_replayed :
    (∀ (acct : Based.Account) (mtype : String) (delay : Option ℤ) (now : ℤ)
       (f t b : String) (s : Slixmppd.XmppSession),
      (mtype = "chat" ∨ mtype = "normal") →
      (Slixmppd.message acct mtype false delay now f t b s).messages =
        s.messages ++ [Based.format_message acct (delay.getD now) f t b] ∧
      (Slixmppd.message acct mtype false delay now f t b s).history =
        s.history ++ [Based.format_message acct (delay.getD now) f t b]) ∧
    (∀ (acct : Based.Account) (chat mucnick ourNick : String) (delay : Option ℤ)
       (now : ℤ) (b : String) (s : Slixmppd.XmppSession),
      (s.muc_filter_own && (mucnick == ourNick)) = false →
      (Slixmppd.muc_message acct "groupchat" chat mucnick ourNick delay now b s).messages =
        s.messages ++ [Based.format_chat_msg acct (delay.getD now) mucnick chat b] ∧
      (Slixmppd.muc_message acct "groupchat" chat mucnick ourNick delay now b s).history =
        s.history ++ [Based.format_chat_msg acct (delay.getD now) mucnick chat b]) ∧
    (∀ (acct : Based.Account) (chat ourNick presNick presRole status : String)
       (s : Slixmppd.XmppSession),
      (Slixmppd.muc_presence acct chat ourNick presNick presRole status s).history =
        s.history ∧
      (Slixmppd.collect (Slixmppd.muc_presence acct chat ourNick presNick presRole
        status s)).1 = (Slixmppd.collect s).1 ∧
      ∃ add, (Slixmppd.muc_presence acct chat ourNick presNick presRole status s).messages =
          s.messages ++ add ∧
        (Slixmppd.get_messages (Slixmppd.muc_presence acct chat ourNick presNick presRole
          status s)).1 = s.messages ++ add) ∧
    (∀ (acct : Based.Account) (connections : List String) (s : Slixmppd.XmppSession),
      (Slixmppd.get_status acct connections s).history = s.history ∧
      (Slixmppd.collect (Slixmppd.get_status acct connections s)).1 =
        (Slixmppd.collect s).1 ∧
      ∃ add, (Slixmppd.get_status acct connections s).messages = s.messages ++ add ∧
        (Slixmppd.get_messages (Slixmppd.get_status acct connections s)).1 =
          s.messages ++ add) ∧
    (∀ (acct : Based.Account) (rooms : List String) (nicks : String → String)
       (s : Slixmppd.XmppSession),
      (Slixmppd.chat_list acct rooms nicks s).history = s.history ∧
      (Slixmppd.collect (Slixmppd.chat_list acct rooms nicks s)).1 =
        (Slixmppd.collect s).1 ∧
      ∃ add, (Slixmppd.chat_list acct rooms nicks s).messages = s.messages ++ add ∧
        (Slixmppd.get_messages (Slixmppd.chat_list acct rooms nicks s)).1 =
          s.messages ++ add) ∧
    (∀ s : Slixmppd.XmppSession,
      (Slixmppd.get_messages ((Slixmppd.get_messages s).2)).1 = []) := by
  refine ⟨?_, ?_, ?_, ?_, ?_, fun s => rfl⟩
  · intro acct mtype delay now f t b s hm
    rcases hm with h | h <;> subst h <;> simp [Slixmppd.message]
  · intro acct chat mucnick ourNick delay now b s hown
    simp [Slixmppd.muc_message, hown]
  · intro acct chat ourNick presNick presRole status s
    by_cases h1 : presNick = "" ∧ presRole = ""
    · refine ⟨?_, ?_, [], ?_, ?_⟩ <;>
        simp [Slixmppd.muc_presence, h1, Slixmppd.collect, Slixmppd.get_messages]
    · by_cases h2 : presNick ≠ ourNick
      · refine ⟨?_, ?_, [Based.Format.CHAT_USER acct.aid chat presNick presNick status],
          ?_, ?_⟩ <;>
          simp [Slixmppd.muc_presence, h1, h2, Slixmppd.collect, Slixmppd.get_messages]
      · refine ⟨?_, ?_, [], ?_, ?_⟩ <;>
          simp [Slixmppd.muc_presence, h1, h2, Slixmppd.collect, Slixmppd.get_messages]
  · intro acct connections s
    refine ⟨rfl, rfl, [Based.Format.STATUS acct.aid
      (connections.foldl (fun st sh => if sh ≠ "" then sh else st)
        (if connections.isEmpty then "offline" else "available"))], rfl, rfl⟩
  · intro acct rooms nicks s
    obtain ⟨hh, hm⟩ := chat_list_fields acct rooms nicks s
    exact ⟨hh, by simp [Slixmppd.collect, hh],
      rooms.map (fun chat => Based.Format.CHAT_LIST acct.aid chat chat (nicks chat)),
      hm, by simp [Slixmppd.get_messages, hm]⟩

/-- Witness for C10 at a concrete direct message and a concrete
group-chat presence on the fresh session. -/
theorem presence_status_chatlist_not_replayed_witness :
    ((Slixmppd.message Based.exAccount "chat" false none 5 "from@x" "to@x" "hello"
        Slixmppd.initSession).messages =
      Slixmppd.initSession.messages ++
        [Based.format_message Based.exAccount ((none : Option ℤ).getD 5)
          "from@x" "to@x" "hello"]) ∧
    ((Slixmppd.muc_presence Based.exAccount "room@muc" "me" "them" "participant" "online"
        Slixmppd.initSession).history = Slixmppd.initSession.history) :=
  ⟨(presence_status_chatlist_not_replayed.1 Based.exAccount "chat" none 5 "from@x" "to@x"
      "hello" Slixmppd.initSession (Or.inl rfl)).1,
   (presence_status_chatlist_not_replayed.2.2.1 Based.exAccount "room@muc" "me" "them"
      "participant" "online" Slixmppd.initSession).1⟩
